import Mathlib

/-
Verification of the `controls` input-binding engine (src/lib.rs, src/triggers.rs).

The Rust data structures are embedded shallowly:
  * `HashMap` / `BTreeMap` become association lists (`List (K × V)`); lookup and
    update act on the first occurrence of a key, mirroring map semantics.
  * `HashSet` becomes a duplicate-free `List`; `insert` reports whether the
    element was new, exactly like `HashSet::insert`.
  * `u32` counters become `Nat`.  Every subtraction in the source is guarded by
    a `debug_assert!` that the counter is positive; theorems below only ever
    evaluate subtraction under hypotheses that make those assertions true, so
    `Nat` subtraction agrees with `u32` subtraction in scope.
  * `f64` values become `Rat`.  The engine never does float arithmetic other
    than multiplication of caller-supplied factors, and every concrete value
    used in a theorem is exactly representable, so the embedding is faithful
    on everything evaluated here.
  * `VecDeque` event queues become `List` with push_back = append.
  * `DeviceId` and winit's `VirtualKeyCode` and `ButtonId` become `Nat`.
-/

set_option linter.unusedVariables false
set_option linter.unusedSectionVars false

/-- association-list lookup: first entry with the given key, mirroring
`HashMap::get`. -/
def alookup {K V : Type} [DecidableEq K] : List (K × V) → K → Option V
  | [], _ => none
  | (k', v) :: rest, k => if k' = k then some v else alookup rest k

/-- association-list version of `map.entry(k).or_insert(d)` followed by an
in-place mutation `f`: rewrite the first entry for `k` to `f` of its value, or
append `(k, f d)` when `k` is absent. -/
def aupdate {K V : Type} [DecidableEq K] : List (K × V) → K → (V → V) → V → List (K × V)
  | [], k, f, d => [(k, f d)]
  | (k', v) :: rest, k, f, d =>
      if k' = k then (k', f v) :: rest else (k', v) :: aupdate rest k f d

/-- association-list version of `map.get_mut(k).map(f)`: rewrite the first
entry for `k` when present, change nothing when absent. -/
def aadjust {K V : Type} [DecidableEq K] : List (K × V) → K → (V → V) → List (K × V)
  | [], _, _ => []
  | (k', v) :: rest, k, f =>
      if k' = k then (k', f v) :: rest else (k', v) :: aadjust rest k f

/-- duplicate-free-list version of `HashSet::insert`: returns the new set and
whether the element was actually new. -/
def hsInsert {A : Type} [DecidableEq A] (l : List A) (a : A) : List A × Bool :=
  if a ∈ l then (l, false) else (l ++ [a], true)

/-- duplicate-free-list version of `HashSet::remove`: returns the new set and
whether the element was present. -/
def hsRemove {A : Type} [DecidableEq A] (l : List A) (a : A) : List A × Bool :=
  if a ∈ l then (l.erase a, true) else (l, false)

/-- winit `DeviceId`, abstracted to a number. -/
abbrev DeviceId : Type := Nat

/-- winit `VirtualKeyCode`, abstracted to a number (the enum discriminant). -/
abbrev VirtualKeyCode : Type := Nat

/-- `MouseWheelDirection` from src/lib.rs. -/
inductive MouseWheelDirection : Type
  | Up
  | Down
deriving DecidableEq

/-- `SwitchState` from src/lib.rs. -/
inductive SwitchState : Type
  | Active
  | Inactive
deriving DecidableEq

/-- `HoldableTrigger` from src/triggers.rs. -/
inductive HoldableTrigger : Type
  | ScanCode (sc : Nat)
  | KeyCode (kc : VirtualKeyCode)
  | Button (b : Nat)
deriving DecidableEq

/-- `FireTrigger` from src/triggers.rs. -/
inductive FireTrigger : Type
  | Holdable (t : HoldableTrigger)
  | MouseWheelTick (d : MouseWheelDirection)
deriving DecidableEq

/-- `ValueTrigger` from src/triggers.rs. -/
inductive ValueTrigger : Type
  | MouseX
  | MouseY
  | MouseWheel
  | Axis (a : Nat)
deriving DecidableEq

/-- winit `ElementState`. -/
inductive ElementState : Type
  | Pressed
  | Released
deriving DecidableEq

/-- winit `MouseScrollDelta`; the pixel-delta payload is never read by the
source, so it is dropped from the embedding. -/
inductive MouseScrollDelta : Type
  | LineDelta (x y : Rat)
  | PixelDelta
deriving DecidableEq

/-- winit `KeyboardInput`, restricted to the fields the source reads. -/
structure KeyboardInput : Type where
  scancode : Nat
  state : ElementState
  virtual_keycode : Option VirtualKeyCode
deriving DecidableEq

/-- winit `DeviceEvent`, restricted to the variants matched by `process`;
`Added` stands for every variant handled by the catch-all arm. -/
inductive DeviceEvent : Type
  | MouseWheel (delta : MouseScrollDelta)
  | Motion (axis : Nat) (value : Rat)
  | MouseMotion (delta : Rat × Rat)
  | Button (button : Nat) (state : ElementState)
  | Key (input : KeyboardInput)
  | Removed
  | Added
deriving DecidableEq

/-- `ValueTargetTrait` from src/lib.rs. -/
class ValueTargetTrait (V : Type) where
  base_factor : V → Rat

/-- `ControlEvent` from src/lib.rs. -/
inductive ControlEvent (F S V : Type) : Type
  | Fire (target : F)
  | Switch (target : S) (state : SwitchState)
  | Value (target : V) (value : Rat)
deriving DecidableEq

/-- `ControlBind` from src/lib.rs. -/
inductive ControlBind (F S V : Type) : Type
  | Fire (trigger : FireTrigger) (target : F)
  | Switch (trigger : HoldableTrigger) (target : S)
  | Value (trigger : ValueTrigger) (target : V)
deriving DecidableEq

/-- `HoldableTriggerData` from src/lib.rs. -/
structure HoldableTriggerData (F S : Type) : Type where
  on_press : List F
  while_down : List S
  device_counters : List (DeviceId × Nat)
  overall_counter : Nat
deriving DecidableEq

/-- `HoldableTriggerData::new`. -/
def HoldableTriggerData.new {F S : Type} : HoldableTriggerData F S :=
  { on_press := [], while_down := [], device_counters := [], overall_counter := 0 }

/-- `MouseWheelMapping` from src/lib.rs. -/
structure MouseWheelMapping (F V : Type) : Type where
  on_up : List F
  on_down : List F
  on_change : List V
deriving DecidableEq

/-- `MouseWheelMapping::new`. -/
def MouseWheelMapping.new {F V : Type} : MouseWheelMapping F V :=
  { on_up := [], on_down := [], on_change := [] }

/-- the `Controls` aggregate from src/lib.rs. -/
structure Controls (F S V : Type) : Type where
  holdable_trigger_data : List (HoldableTrigger × HoldableTriggerData F S)
  axis_mappings : List (Nat × List V)
  mouse_wheel_mapping : MouseWheelMapping F V
  switch_counter : List (S × Nat)
  value_factors : List (V × Rat)
  events : List (ControlEvent F S V)
deriving DecidableEq

/-- `Controls::new`. -/
def Controls.new {F S V : Type} : Controls F S V :=
  { holdable_trigger_data := [], axis_mappings := [],
    mouse_wheel_mapping := MouseWheelMapping.new, switch_counter := [],
    value_factors := [], events := [] }

section Operations

variable {F S V : Type} [DecidableEq F] [DecidableEq S] [DecidableEq V]

/-- `Controls::set_factor`. -/
def Controls.set_factor (c : Controls F S V) (target : V) (factor : Rat) :
    Controls F S V :=
  { c with value_factors := aupdate c.value_factors target (fun _ => factor) factor }

/-- `Controls::increase_switch_target_counter`: bump the counter for `target`,
emitting `Switch(Active)` when it was 0.  Takes and returns the
`switch_counter` map and the event queue, exactly like the source's free
function over two `&mut` fields. -/
def increase_switch_target_counter (target : S) (switch_counter : List (S × Nat))
    (events : List (ControlEvent F S V)) :
    List (S × Nat) × List (ControlEvent F S V) :=
  let counter := (alookup switch_counter target).getD 0
  let events :=
    if counter = 0 then
      events ++ [ControlEvent.Switch target SwitchState.Active]
    else events
  (aupdate switch_counter target (fun n => n + 1) 0, events)

/-- `Controls::decrease_switch_target_counter`: drop the counter for `target`,
emitting `Switch(Inactive)` when it reaches 0.  The source
`debug_assert!`s that the counter is positive before the `u32` subtraction. -/
def decrease_switch_target_counter (target : S) (switch_counter : List (S × Nat))
    (events : List (ControlEvent F S V)) :
    List (S × Nat) × List (ControlEvent F S V) :=
  let counter := (alookup switch_counter target).getD 0
  let events :=
    if counter - 1 = 0 then
      events ++ [ControlEvent.Switch target SwitchState.Inactive]
    else events
  (aupdate switch_counter target (fun n => n - 1) 0, events)

/-- the `for ... { Self::increase_switch_target_counter(..) }` loop over a
`while_down` set inside `handle_holdable_trigger`. -/
def incFold (targets : List S) (switch_counter : List (S × Nat))
    (events : List (ControlEvent F S V)) :
    List (S × Nat) × List (ControlEvent F S V) :=
  targets.foldl (fun p t => increase_switch_target_counter t p.1 p.2)
    (switch_counter, events)

/-- the `for ... { Self::decrease_switch_target_counter(..) }` loop over a
`while_down` set inside `handle_holdable_trigger`. -/
def decFold (targets : List S) (switch_counter : List (S × Nat))
    (events : List (ControlEvent F S V)) :
    List (S × Nat) × List (ControlEvent F S V) :=
  targets.foldl (fun p t => decrease_switch_target_counter t p.1 p.2)
    (switch_counter, events)

/-- the `Pressed` arm of the counter update inside `handle_holdable_trigger`:
`*device_counter += 1; *overall_counter += 1` through the `entry` API. -/
def pressData {F S : Type} [DecidableEq F] [DecidableEq S]
    (data : HoldableTriggerData F S) (device_id : DeviceId) :
    HoldableTriggerData F S :=
  { data with
    device_counters := aupdate data.device_counters device_id (fun n => n + 1) 0,
    overall_counter := data.overall_counter + 1 }

/-- the `Released` arm of the counter update inside `handle_holdable_trigger`:
`*device_counter -= 1; *overall_counter -= 1`, both under `debug_assert!`s
that they were positive. -/
def releaseData {F S : Type} [DecidableEq F] [DecidableEq S]
    (data : HoldableTriggerData F S) (device_id : DeviceId) :
    HoldableTriggerData F S :=
  { data with
    device_counters := aupdate data.device_counters device_id (fun n => n - 1) 0,
    overall_counter := data.overall_counter - 1 }

/-- `Controls::handle_holdable_trigger`.  Phase one bumps the per-device and
overall counters through the `entry` API (`pressData`/`releaseData`); on a 0→1
press edge it then emits the `on_press` Fire events followed by Switch
increments for `while_down`, and on a 1→0 release edge the Switch decrements.
Interior edges return right after the counter update. -/
def Controls.handle_holdable_trigger (c : Controls F S V)
    (trigger : HoldableTrigger) (device_id : DeviceId) (state : ElementState) :
    Controls F S V :=
  let data := (alookup c.holdable_trigger_data trigger).getD HoldableTriggerData.new
  match state with
  | ElementState.Pressed =>
      let data' := pressData data device_id
      let htd := aupdate c.holdable_trigger_data trigger (fun _ => data')
        HoldableTriggerData.new
      let c' := { c with holdable_trigger_data := htd }
      if data'.overall_counter ≠ 1 then c'
      else
        let events := c'.events ++ data'.on_press.map ControlEvent.Fire
        let p := incFold data'.while_down c'.switch_counter events
        { c' with switch_counter := p.1, events := p.2 }
  | ElementState.Released =>
      let data' := releaseData data device_id
      let htd := aupdate c.holdable_trigger_data trigger (fun _ => data')
        HoldableTriggerData.new
      let c' := { c with holdable_trigger_data := htd }
      if data'.overall_counter ≠ 0 then c'
      else
        let p := decFold data'.while_down c'.switch_counter c'.events
        { c' with switch_counter := p.1, events := p.2 }

/-- `Controls::on_device_removed`: for every holdable-trigger entry holding a
counter for the removed device, subtract it from the overall counter and zero
it.  No events are emitted and `switch_counter` is not touched. -/
def removeDeviceEntry {F S : Type} [DecidableEq F] [DecidableEq S]
    (device_id : DeviceId) (p : HoldableTrigger × HoldableTriggerData F S) :
    HoldableTrigger × HoldableTriggerData F S :=
  match alookup p.2.device_counters device_id with
  | none => p
  | some dc =>
      (p.1, { p.2 with
        overall_counter := p.2.overall_counter - dc,
        device_counters := aupdate p.2.device_counters device_id (fun _ => 0) 0 })

/-- `Controls::on_device_removed` proper: rewrite every entry. -/
def Controls.on_device_removed (c : Controls F S V) (device_id : DeviceId) :
    Controls F S V :=
  { c with holdable_trigger_data :=
      c.holdable_trigger_data.map (removeDeviceEntry device_id) }

/-- `Controls::on_motion`.  Note the source folds the mutable local `value`
through the loop: each target multiplies the *accumulated* value by its factor
and base factor, and the zero test inspects the accumulated value before the
multiplication. -/
def motionFold [ValueTargetTrait V] (c : Controls F S V) (mapping : List V)
    (p : Rat × List (ControlEvent F S V)) : Rat × List (ControlEvent F S V) :=
  mapping.foldl (fun (p : Rat × List (ControlEvent F S V)) target =>
    let factor := (alookup c.value_factors target).getD 1
    if p.1 ≠ 0 then
      let v := p.1 * (factor * ValueTargetTrait.base_factor target)
      (v, p.2 ++ [ControlEvent.Value target v])
    else p) p

/-- `Controls::on_motion` proper: dispatch on the axis mapping and run the
fold above starting from the raw value and the current queue. -/
def Controls.on_motion [ValueTargetTrait V] (c : Controls F S V)
    (_device_id : DeviceId) (axis : Nat) (value : Rat) : Controls F S V :=
  match alookup c.axis_mappings axis with
  | none => c
  | some mapping =>
      let p := motionFold c mapping (value, c.events)
      { c with events := p.2 }

/-- `Controls::on_mouse_motion` is an empty TODO body in the source. -/
def Controls.on_mouse_motion (c : Controls F S V) (_device_id : DeviceId)
    (_delta : Rat × Rat) : Controls F S V :=
  c

/-- `Controls::on_mouse_wheel`: pixel deltas are dropped; a negative line-delta
y fires the `on_up` set, a positive one the `on_down` set, and every
`on_change` target gets the raw y as a Value event. -/
def Controls.on_mouse_wheel (c : Controls F S V) (_device_id : DeviceId)
    (delta : MouseScrollDelta) : Controls F S V :=
  match delta with
  | MouseScrollDelta.PixelDelta => c
  | MouseScrollDelta.LineDelta _x y =>
      let value := y
      let events := c.events
      let events :=
        if value < 0 then events ++ c.mouse_wheel_mapping.on_up.map ControlEvent.Fire
        else if value > 0 then events ++ c.mouse_wheel_mapping.on_down.map ControlEvent.Fire
        else events
      let events := events ++
        c.mouse_wheel_mapping.on_change.map (fun t => ControlEvent.Value t value)
      { c with events := events }

/-- `Controls::on_button`. -/
def Controls.on_button (c : Controls F S V) (device_id : DeviceId)
    (button_id : Nat) (state : ElementState) : Controls F S V :=
  c.handle_holdable_trigger (HoldableTrigger.Button button_id) device_id state

/-- `Controls::on_keyboard_input`: the virtual keycode (when present) and the
scancode are handled as two independent holdable triggers, in that order. -/
def Controls.on_keyboard_input (c : Controls F S V) (device_id : DeviceId)
    (input : KeyboardInput) : Controls F S V :=
  let c :=
    match input.virtual_keycode with
    | some key_code =>
        c.handle_holdable_trigger (HoldableTrigger.KeyCode key_code) device_id input.state
    | none => c
  c.handle_holdable_trigger (HoldableTrigger.ScanCode input.scancode) device_id input.state

/-- `Controls::process`. -/
def Controls.process [ValueTargetTrait V] (c : Controls F S V)
    (device_id : DeviceId) (device_event : DeviceEvent) : Controls F S V :=
  match device_event with
  | DeviceEvent.MouseWheel delta => c.on_mouse_wheel device_id delta
  | DeviceEvent.Motion axis value => c.on_motion device_id axis value
  | DeviceEvent.MouseMotion delta => c.on_mouse_motion device_id delta
  | DeviceEvent.Button button state => c.on_button device_id button state
  | DeviceEvent.Key input => c.on_keyboard_input device_id input
  | DeviceEvent.Removed => c.on_device_removed device_id
  | DeviceEvent.Added => c

/-- `Controls::add_fire_bind`. -/
def Controls.add_fire_bind (c : Controls F S V) (trigger : FireTrigger)
    (target : F) : Controls F S V :=
  match trigger with
  | FireTrigger.Holdable holdable_trigger =>
      let htd := aupdate c.holdable_trigger_data holdable_trigger
        (fun d => { d with on_press := (hsInsert d.on_press target).1 })
        HoldableTriggerData.new
      { c with holdable_trigger_data := htd }
  | FireTrigger.MouseWheelTick MouseWheelDirection.Up =>
      { c with mouse_wheel_mapping := { c.mouse_wheel_mapping with
          on_up := (hsInsert c.mouse_wheel_mapping.on_up target).1 } }
  | FireTrigger.MouseWheelTick MouseWheelDirection.Down =>
      { c with mouse_wheel_mapping := { c.mouse_wheel_mapping with
          on_down := (hsInsert c.mouse_wheel_mapping.on_down target).1 } }

/-- `Controls::add_switch_bind`: insert into `while_down`; when the binding is
new and the trigger currently held, perform the live-rebinding Switch-counter
increment. -/
def Controls.add_switch_bind (c : Controls F S V) (trigger : HoldableTrigger)
    (target : S) : Controls F S V :=
  let data := (alookup c.holdable_trigger_data trigger).getD HoldableTriggerData.new
  let ins := hsInsert data.while_down target
  let data' := { data with while_down := ins.1 }
  let htd := aupdate c.holdable_trigger_data trigger (fun _ => data')
    HoldableTriggerData.new
  if ins.2 && decide (0 < data.overall_counter) then
    let p := increase_switch_target_counter target c.switch_counter c.events
    { c with holdable_trigger_data := htd, switch_counter := p.1, events := p.2 }
  else
    { c with holdable_trigger_data := htd }

/-- `Controls::add_value_bind`; the MouseX/MouseY arms are TODO in the source
and store nothing. -/
def Controls.add_value_bind (c : Controls F S V) (trigger : ValueTrigger)
    (target : V) : Controls F S V :=
  match trigger with
  | ValueTrigger.MouseX => c
  | ValueTrigger.MouseY => c
  | ValueTrigger.MouseWheel =>
      { c with mouse_wheel_mapping := { c.mouse_wheel_mapping with
          on_change := (hsInsert c.mouse_wheel_mapping.on_change target).1 } }
  | ValueTrigger.Axis axis =>
      let am := aupdate c.axis_mappings axis (fun l => (hsInsert l target).1) []
      { c with axis_mappings := am }

/-- `Controls::remove_fire_bind`. -/
def Controls.remove_fire_bind (c : Controls F S V) (trigger : FireTrigger)
    (target : F) : Controls F S V :=
  match trigger with
  | FireTrigger.Holdable holdable_trigger =>
      let htd := aadjust c.holdable_trigger_data holdable_trigger
        (fun d => { d with on_press := (hsRemove d.on_press target).1 })
      { c with holdable_trigger_data := htd }
  | FireTrigger.MouseWheelTick MouseWheelDirection.Up =>
      { c with mouse_wheel_mapping := { c.mouse_wheel_mapping with
          on_up := (hsRemove c.mouse_wheel_mapping.on_up target).1 } }
  | FireTrigger.MouseWheelTick MouseWheelDirection.Down =>
      { c with mouse_wheel_mapping := { c.mouse_wheel_mapping with
          on_down := (hsRemove c.mouse_wheel_mapping.on_down target).1 } }

/-- `Controls::remove_switch_bind`: remove from `while_down`; when the binding
existed and the trigger is currently held, perform the live-rebinding
Switch-counter decrement. -/
def Controls.remove_switch_bind (c : Controls F S V) (trigger : HoldableTrigger)
    (target : S) : Controls F S V :=
  match alookup c.holdable_trigger_data trigger with
  | none => c
  | some data =>
      let rem := hsRemove data.while_down target
      let data' := { data with while_down := rem.1 }
      let htd := aadjust c.holdable_trigger_data trigger (fun _ => data')
      if rem.2 && decide (0 < data.overall_counter) then
        let p := decrease_switch_target_counter target c.switch_counter c.events
        { c with holdable_trigger_data := htd, switch_counter := p.1, events := p.2 }
      else
        { c with holdable_trigger_data := htd }

/-- `Controls::remove_value_bind`; the MouseX/MouseY arms are TODO in the
source and remove nothing. -/
def Controls.remove_value_bind (c : Controls F S V) (trigger : ValueTrigger)
    (target : V) : Controls F S V :=
  match trigger with
  | ValueTrigger.MouseX => c
  | ValueTrigger.MouseY => c
  | ValueTrigger.MouseWheel =>
      { c with mouse_wheel_mapping := { c.mouse_wheel_mapping with
          on_change := (hsRemove c.mouse_wheel_mapping.on_change target).1 } }
  | ValueTrigger.Axis axis =>
      let am := aadjust c.axis_mappings axis (fun l => (hsRemove l target).1)
      { c with axis_mappings := am }

/-- `Controls::add_bind`. -/
def Controls.add_bind (c : Controls F S V) (bind : ControlBind F S V) :
    Controls F S V :=
  match bind with
  | ControlBind.Fire trigger target => c.add_fire_bind trigger target
  | ControlBind.Switch trigger target => c.add_switch_bind trigger target
  | ControlBind.Value trigger target => c.add_value_bind trigger target

/-- `Controls::remove_bind`. -/
def Controls.remove_bind (c : Controls F S V) (bind : ControlBind F S V) :
    Controls F S V :=
  match bind with
  | ControlBind.Fire trigger target => c.remove_fire_bind trigger target
  | ControlBind.Switch trigger target => c.remove_switch_bind trigger target
  | ControlBind.Value trigger target => c.remove_value_bind trigger target

end Operations

/-
The operation language of the aggregate: everything a caller can do between
drains — change bindings, change factors, or feed a raw device event into
`process`.
-/

/-- one public operation on a `Controls` aggregate. -/
inductive Op (F S V : Type) : Type
  | bindAdd (b : ControlBind F S V)
  | bindRemove (b : ControlBind F S V)
  | factorSet (target : V) (factor : Rat)
  | dev (device_id : DeviceId) (e : DeviceEvent)
deriving DecidableEq

section Machine

variable {F S V : Type} [DecidableEq F] [DecidableEq S] [DecidableEq V]
variable [ValueTargetTrait V]

/-- apply one operation. -/
def applyOp (c : Controls F S V) : Op F S V → Controls F S V
  | Op.bindAdd b => c.add_bind b
  | Op.bindRemove b => c.remove_bind b
  | Op.factorSet t f => c.set_factor t f
  | Op.dev d e => c.process d e

/-- apply a list of operations in order. -/
def run (c : Controls F S V) : List (Op F S V) → Controls F S V
  | [] => c
  | op :: ops => run (applyOp c op) ops

/-- the `HoldableTriggerData` currently stored for a trigger (a fresh record
when no entry exists, matching the lazy `entry`-creation of the source). -/
def dataOf (c : Controls F S V) (t : HoldableTrigger) : HoldableTriggerData F S :=
  (alookup c.holdable_trigger_data t).getD HoldableTriggerData.new

/-- current switch counter of a target (0 when no entry exists). -/
def switchCountOf (c : Controls F S V) (s : S) : Nat :=
  (alookup c.switch_counter s).getD 0

/-- current per-device counter inside a `HoldableTriggerData`. -/
def deviceCountOf (d : HoldableTriggerData F S) (dev : DeviceId) : Nat :=
  (alookup d.device_counters dev).getD 0

/-- sum of all per-device counters of a `HoldableTriggerData`. -/
def sumDC (d : HoldableTriggerData F S) : Nat :=
  (d.device_counters.map Prod.snd).sum

/-- number of holdable triggers whose `while_down` set contains `s` and whose
overall counter is positive — the right-hand side of invariant I2. -/
def activeCount (c : Controls F S V) (s : S) : Nat :=
  c.holdable_trigger_data.countP
    (fun p => decide (s ∈ p.2.while_down) && decide (0 < p.2.overall_counter))

/-- a press is always well formed; a release is well formed when the device
still holds a matching press for this trigger (its per-device counter is
positive), which is exactly what the source `debug_assert!`s. -/
def releaseOk (c : Controls F S V) (t : HoldableTrigger) (d : DeviceId) :
    ElementState → Bool
  | ElementState.Pressed => true
  | ElementState.Released => decide (0 < deviceCountOf (dataOf c t) d)

/-- well-formedness of one raw device event against the current state. -/
def devOk (c : Controls F S V) (d : DeviceId) : DeviceEvent → Bool
  | DeviceEvent.Button b st => releaseOk c (HoldableTrigger.Button b) d st
  | DeviceEvent.Key input =>
      (match input.virtual_keycode with
       | some kc => releaseOk c (HoldableTrigger.KeyCode kc) d input.state
       | none => true)
      && releaseOk c (HoldableTrigger.ScanCode input.scancode) d input.state
  | _ => true

/-- well-formedness of one operation against the current state. -/
def opOk (c : Controls F S V) : Op F S V → Bool
  | Op.dev d e => devOk c d e
  | _ => true

/-- a list of operations is well formed when every operation is well formed in
the state reached by its predecessors: every release is matched by an earlier
press of the same trigger on the same device that was not cancelled by a
device-removal. -/
def runOk (c : Controls F S V) : List (Op F S V) → Bool
  | [] => true
  | op :: ops => opOk c op && runOk (applyOp c op) ops

/-- the subsequence of Switch states emitted for one particular target. -/
def switchEventsFor (s : S) (evs : List (ControlEvent F S V)) : List SwitchState :=
  evs.filterMap (fun ev =>
    match ev with
    | ControlEvent.Switch t st => if t = s then some st else none
    | _ => none)

end Machine

/-- the opposite switch state. -/
def flipS : SwitchState → SwitchState
  | SwitchState.Active => SwitchState.Inactive
  | SwitchState.Inactive => SwitchState.Active

/-- `altFrom e l` holds when `l` is the strict alternation `e, flip e, e, …`. -/
def altFrom : SwitchState → List SwitchState → Bool
  | _, [] => true
  | e, x :: xs => decide (x = e) && altFrom (flipS e) xs

/-- the state an alternating stream starting with Active expects next. -/
def nextExp (l : List SwitchState) : SwitchState :=
  if l.length % 2 = 0 then SwitchState.Active else SwitchState.Inactive

section Invariants

variable {F S V : Type} [DecidableEq F] [DecidableEq S] [DecidableEq V]

/-- per-entry well-formedness: `while_down` is a set and invariant I1 holds
(the overall counter is the sum of the per-device counters). -/
def EntriesWf (c : Controls F S V) : Prop :=
  ∀ p ∈ c.holdable_trigger_data, p.2.while_down.Nodup ∧ p.2.overall_counter = sumDC p.2

/-- switch-counter well-formedness: every switch counter dominates the number
of active triggers bound to it, and the emitted Switch stream of every target
alternates starting with Active, with the parity of the stream reflecting
whether the counter is currently positive. -/
def SwitchWf (c : Controls F S V) : Prop :=
  ∀ s : S,
    activeCount c s ≤ switchCountOf c s ∧
    altFrom SwitchState.Active (switchEventsFor s c.events) = true ∧
    nextExp (switchEventsFor s c.events) =
      (if 0 < switchCountOf c s then SwitchState.Inactive else SwitchState.Active)

/-- the inductive invariant carried through every operation. -/
def Wf (c : Controls F S V) : Prop := EntriesWf c ∧ SwitchWf c

end Invariants

/-
Configuration codec (src/triggers.rs and `Controls::{from_toml}`).
-/

/-- `toml::value::Value`, restricted to the variants the source matches on;
floats are embedded as rationals since the codec only stores and re-emits
them. -/
inductive Toml : Type
  | VString (s : String)
  | VInteger (i : Int)
  | VFloat (f : Rat)
  | VBoolean (b : Bool)
  | VArray (l : List Toml)
  | VTable (t : List (String × Toml))

/-- view of `Except` as a sum, giving decidable equality of codec results. -/
def exceptToSum {E A : Type} : Except E A → E ⊕ A
  | Except.error e => Sum.inl e
  | Except.ok a => Sum.inr a

instance {E A : Type} [DecidableEq E] [DecidableEq A] : DecidableEq (Except E A) :=
  fun a b =>
    decidable_of_iff (exceptToSum a = exceptToSum b)
      (by cases a <;> cases b <;> simp [exceptToSum])

/-- a single-quote character as a string, for building the source's quoted
error messages. -/
def squo : String := String.mk [Char.ofNat 39]

/-- display of a toml value, modelled from the toml crate's `Display`
implementation; it only feeds error messages that no theorem below inspects. -/
def tomlDisplay : Toml → String
  | Toml.VString s => String.mk [Char.ofNat 34] ++ s ++ String.mk [Char.ofNat 34]
  | Toml.VInteger i => toString i
  | Toml.VFloat f => toString f
  | Toml.VBoolean b => toString b
  | Toml.VArray _ => "[...]"
  | Toml.VTable _ => "{...}"

/-- Rust `str::parse::<u32>`: an optional leading plus sign, then one or more
decimal digits, whose value fits in 32 bits. -/
def parseU32 (s : String) : Option Nat :=
  let t := if "+".data.isPrefixOf s.data then s.data.drop 1 else s.data
  if t.length > 0 && t.all Char.isDigit then
    let n := t.foldl (fun a ch => a * 10 + (ch.toNat - 48)) 0
    if n < 4294967296 then some n else none
  else none

/-- `num::NumCast::from::<u32>(i64)`: succeeds exactly on values representable
as u32. -/
def u32FromInt (i : Int) : Option Nat :=
  if 0 ≤ i ∧ i < 4294967296 then some i.toNat else none

/-- the textual names of `KEY_CODE_PAIRS` in src/triggers.rs, in source
order. -/
def keyCodeNames : List String :=
  ["1", "2", "3", "4", "5", "6", "7", "8", "9", "0", "A", "B", "C", "D",
   "E", "F", "G", "H", "I", "J", "K", "L", "M", "N", "O", "P", "Q", "R", "S",
   "T", "U", "V", "W", "X", "Y", "Z", "Escape", "F1", "F2", "F3", "F4", "F5",
   "F6", "F7", "F8", "F9", "F10", "F11", "F12", "F13", "F14", "F15", "F16",
   "F17", "F18", "F19", "F20", "F21", "F22", "F23", "F24", "Snapshot",
   "Scroll", "Pause", "Insert", "Home", "Delete", "End", "PageDown", "PageUp",
   "Left", "Up", "Right", "Down", "Back", "Return", "Space", "Compose",
   "Caret", "Numlock", "Numpad0", "Numpad1", "Numpad2", "Numpad3", "Numpad4",
   "Numpad5", "Numpad6", "Numpad7", "Numpad8", "Numpad9", "AbntC1", "AbntC2",
   "Add", "Apostrophe", "Apps", "At", "Ax", "Backslash", "Calculator",
   "Capital", "Colon", "Comma", "Convert", "Decimal", "Divide", "Equals",
   "Grave", "Kana", "Kanji", "LAlt", "LBracket", "LControl", "LShift", "LWin",
   "Mail", "MediaSelect", "MediaStop", "Minus", "Multiply", "Mute",
   "MyComputer", "NavigateForward", "NavigateBackward", "NextTrack",
   "NoConvert", "NumpadComma", "NumpadEnter", "NumpadEquals", "OEM102",
   "Period", "PlayPause", "Power", "PrevTrack", "RAlt", "RBracket",
   "RControl", "RShift", "RWin", "Semicolon", "Slash", "Sleep", "Stop",
   "Subtract", "Sysrq", "Tab", "Underline", "Unlabeled", "VolumeDown",
   "VolumeUp", "Wake", "WebBack", "WebFavorites", "WebForward", "WebHome",
   "WebRefresh", "WebSearch", "WebStop", "Yen", "Copy", "Paste", "Cut"]

/-- `KEY_CODE_PAIRS` from src/triggers.rs: pairs of (virtual keycode, textual
name), the keycodes being the positions of the names in the source table. -/
def KEY_CODE_PAIRS : List (Nat × String) := keyCodeNames.enum

/-- `HoldableTrigger::from_toml`.  Beware the string arm: the source tests
`ss.starts_with("Button")` but then parses `ss[5..]`, dropping only five of
the six characters of `Button`, so the parsed slice always starts with the
letter n. -/
def HoldableTrigger.from_toml : Toml → Except String HoldableTrigger
  | Toml.VInteger i =>
      (match u32FromInt i with
       | some sc => Except.ok (HoldableTrigger.ScanCode sc)
       | none => Except.error ("Invalid scan code: " ++ toString i))
  | Toml.VString s =>
      if "Button".data.isPrefixOf s.data then
        match parseU32 (s.drop 5) with
        | some number => Except.ok (HoldableTrigger.Button number)
        | none => Except.error ("Unknown push button " ++ s)
      else
        (match KEY_CODE_PAIRS.find? (fun p => p.2 == s) with
         | some p => Except.ok (HoldableTrigger.KeyCode p.1)
         | none => Except.error ("Unknown push button " ++ s))
  | v => Except.error ("Unknown push button " ++ tomlDisplay v)

/-- `HoldableTrigger::to_toml`. -/
def HoldableTrigger.to_toml : HoldableTrigger → Toml
  | HoldableTrigger.ScanCode sc => Toml.VInteger sc
  | HoldableTrigger.KeyCode kc =>
      (match KEY_CODE_PAIRS.find? (fun p => p.1 == kc) with
       | some p => Toml.VString p.2
       | none => Toml.VString "")
  | HoldableTrigger.Button number => Toml.VString ("Button" ++ toString number)

/-- `FireTrigger::from_toml`: first try the holdable decoder, then the wheel
tick names. -/
def FireTrigger.from_toml (value : Toml) : Except String FireTrigger :=
  match HoldableTrigger.from_toml value with
  | Except.ok switch_trigger => Except.ok (FireTrigger.Holdable switch_trigger)
  | Except.error _ =>
      match value with
      | Toml.VString s =>
          if s = "MouseWheelUp" then
            Except.ok (FireTrigger.MouseWheelTick MouseWheelDirection.Up)
          else if s = "MouseWheelDown" then
            Except.ok (FireTrigger.MouseWheelTick MouseWheelDirection.Down)
          else Except.error ("Unknown fire trigger: " ++ squo ++ s ++ squo)
      | v => Except.error ("Fire trigger must be string, got " ++ squo ++ tomlDisplay v ++ squo ++ "!")

/-- `FireTrigger::to_toml`. -/
def FireTrigger.to_toml : FireTrigger → Toml
  | FireTrigger.Holdable trigger => trigger.to_toml
  | FireTrigger.MouseWheelTick MouseWheelDirection.Up => Toml.VString "MouseWheelUp"
  | FireTrigger.MouseWheelTick MouseWheelDirection.Down => Toml.VString "MouseWheelDown"

/-- `ValueTrigger::from_toml`. -/
def ValueTrigger.from_toml : Toml → Except String ValueTrigger
  | Toml.VInteger i =>
      (match u32FromInt i with
       | some axis => Except.ok (ValueTrigger.Axis axis)
       | none => Except.error ("Invalid axis id: " ++ toString i))
  | Toml.VString s =>
      if s = "MouseWheel" then Except.ok ValueTrigger.MouseWheel
      else Except.error ("Unknown axis: " ++ squo ++ s ++ squo)
  | v => Except.error (squo ++ "axis" ++ squo ++ " must be integer or string, got " ++ squo ++ tomlDisplay v ++ squo ++ "!")

/-- `Target` from src/lib.rs. -/
inductive Target (F S V : Type) : Type
  | Fire (target : F)
  | Switch (target : S)
  | Value (target : V)

section Codec

variable {F S V : Type} [DecidableEq F] [DecidableEq S] [DecidableEq V]

/-- `FromStr for Target`: try the Fire parser, then Switch, then Value.  The
application-supplied `FromStr` implementations of the three target families
are passed as explicit functions. -/
def Target.from_str (pF : String → Option F) (pS : String → Option S)
    (pV : String → Option V) (s : String) : Except String (Target F S V) :=
  match pF s with
  | some target => Except.ok (Target.Fire target)
  | none =>
      match pS s with
      | some target => Except.ok (Target.Switch target)
      | none =>
          match pV s with
          | some target => Except.ok (Target.Value target)
          | none => Except.error ("Unknown target " ++ squo ++ s ++ squo ++ "!")

/-- the loop over the `binds` table inside `Controls::from_toml`: parse each
key as a target name, decode the trigger from the value according to the
target family, and `add_bind` the result. -/
def Controls.fromTomlBinds (pF : String → Option F) (pS : String → Option S)
    (pV : String → Option V) :
    Controls F S V → List (String × Toml) → Except String (Controls F S V)
  | c, [] => Except.ok c
  | c, (target_string, trigger_value) :: rest =>
      match Target.from_str pF pS pV target_string with
      | Except.error e => Except.error e
      | Except.ok (Target.Fire target) =>
          (match FireTrigger.from_toml trigger_value with
           | Except.error e => Except.error e
           | Except.ok trig =>
               Controls.fromTomlBinds pF pS pV
                 (c.add_bind (ControlBind.Fire trig target)) rest)
      | Except.ok (Target.Switch target) =>
          (match HoldableTrigger.from_toml trigger_value with
           | Except.error e => Except.error e
           | Except.ok trig =>
               Controls.fromTomlBinds pF pS pV
                 (c.add_bind (ControlBind.Switch trig target)) rest)
      | Except.ok (Target.Value target) =>
          (match ValueTrigger.from_toml trigger_value with
           | Except.error e => Except.error e
           | Except.ok trig =>
               Controls.fromTomlBinds pF pS pV
                 (c.add_bind (ControlBind.Value trig target)) rest)

/-- the loop over the `factors` table inside `Controls::from_toml`. -/
def Controls.fromTomlFactors (pF : String → Option F) (pS : String → Option S)
    (pV : String → Option V) :
    Controls F S V → List (String × Toml) → Except String (Controls F S V)
  | c, [] => Except.ok c
  | c, (target_string, trigger_value) :: rest =>
      match Target.from_str pF pS pV target_string with
      | Except.error e => Except.error e
      | Except.ok (Target.Value target) =>
          (match trigger_value with
           | Toml.VFloat factor =>
               Controls.fromTomlFactors pF pS pV (c.set_factor target factor) rest
           | v => Except.error ("Factor must be a float, got " ++ squo ++ tomlDisplay v ++ squo ++ "!"))
      | Except.ok _ => Except.error "Expected value target!"

/-- `Controls::from_toml`: require a top-level table, decode the `binds`
section, then the `factors` section.  Table entries are visited in document
order (the toml crate's `BTreeMap` yields keys sorted). -/
def Controls.from_toml (pF : String → Option F) (pS : String → Option S)
    (pV : String → Option V) (value : Toml) : Except String (Controls F S V) :=
  match value with
  | Toml.VTable table =>
      (match alookup table "binds" with
       | some (Toml.VTable keys) =>
           (match Controls.fromTomlBinds pF pS pV Controls.new keys with
            | Except.error e => Except.error e
            | Except.ok controls =>
                match alookup table "factors" with
                | some (Toml.VTable factors) =>
                    Controls.fromTomlFactors pF pS pV controls factors
                | some _ => Except.error "Binds must be a table!"
                | none => Except.error "No binds section found in controls!")
       | some _ => Except.error "Binds must be a table!"
       | none => Except.error "No binds section found in controls!")
  | _ => Except.error "Controls must be a table!"

end Codec

/-
Concrete target families, mirroring the enums of the test module in
src/lib.rs, used to instantiate the generic theorems at evaluable inputs.
-/

/-- the `FireTarget` enum of the source's test module. -/
inductive FireTargetT : Type
  | LMBFire
  | MWUpFire
  | MWDownFire
  | GHFire
deriving DecidableEq

/-- the `SwitchTarget` enum of the source's test module. -/
inductive SwitchTargetT : Type
  | RMBSwitch
  | GHSwitch
  | Key0Switch
  | AMMBSwitch
deriving DecidableEq

/-- the `ValueTarget` enum of the source's test module. -/
inductive ValueTargetT : Type
  | MouseX
deriving DecidableEq

instance : ValueTargetTrait ValueTargetT := ⟨fun _ => 1⟩

/-- derived `FromStr` (strum `EnumString`) for the test `FireTarget`. -/
def parseFireTargetT (s : String) : Option FireTargetT :=
  if s = "LMBFire" then some FireTargetT.LMBFire
  else if s = "MWUpFire" then some FireTargetT.MWUpFire
  else if s = "MWDownFire" then some FireTargetT.MWDownFire
  else if s = "GHFire" then some FireTargetT.GHFire
  else none

/-- derived `FromStr` (strum `EnumString`) for the test `SwitchTarget`. -/
def parseSwitchTargetT (s : String) : Option SwitchTargetT :=
  if s = "RMBSwitch" then some SwitchTargetT.RMBSwitch
  else if s = "GHSwitch" then some SwitchTargetT.GHSwitch
  else if s = "Key0Switch" then some SwitchTargetT.Key0Switch
  else if s = "AMMBSwitch" then some SwitchTargetT.AMMBSwitch
  else none

/-- derived `FromStr` (strum `EnumString`) for the test `ValueTarget`. -/
def parseValueTargetT (s : String) : Option ValueTargetT :=
  if s = "MouseX" then some ValueTargetT.MouseX else none

/-- base factor 1, used when instantiating the value-target family at `Nat`
in concrete runs (mirroring the test module's `base_factor` of 1.0). -/
instance : ValueTargetTrait Nat := ⟨fun _ => 1⟩

/-
Basic lemmas about the association-list and set primitives.
-/

section AssocLemmas

variable {K W : Type} [DecidableEq K]

theorem alookup_aupdate_self (l : List (K × W)) (k : K) (f : W → W) (d : W) :
    alookup (aupdate l k f d) k = some (f ((alookup l k).getD d)) := by
  induction l with
  | nil => simp [alookup, aupdate]
  | cons p rest ih =>
      obtain ⟨k', v⟩ := p
      by_cases h : k' = k
      · simp [alookup, aupdate, h]
      · simp [alookup, aupdate, h, ih]

theorem alookup_aupdate_ne (l : List (K × W)) (k j : K) (hjk : j ≠ k)
    (f : W → W) (d : W) : alookup (aupdate l k f d) j = alookup l j := by
  have hkj : ¬ (k = j) := fun h => hjk h.symm
  induction l with
  | nil => simp [alookup, aupdate, hkj]
  | cons p rest ih =>
      obtain ⟨k', v⟩ := p
      by_cases h : k' = k
      · subst h
        simp [alookup, aupdate, hkj]
      · by_cases h2 : k' = j <;> simp [alookup, aupdate, h, h2, hjk, hkj, ih]

theorem alookup_mem {l : List (K × W)} {k : K} {v : W}
    (h : alookup l k = some v) : (k, v) ∈ l := by
  induction l with
  | nil => simp [alookup] at h
  | cons p rest ih =>
      obtain ⟨k', w⟩ := p
      by_cases hk : k' = k
      · subst hk
        simp [alookup] at h
        simp [h]
      · simp [alookup, hk] at h
        exact List.mem_cons_of_mem _ (ih h)

theorem aupdate_mem {l : List (K × W)} {k : K} {f : W → W} {d : W} {p : K × W}
    (h : p ∈ aupdate l k f d) :
    p ∈ l ∨ p = (k, f ((alookup l k).getD d)) := by
  induction l with
  | nil => simp [aupdate, alookup] at h; simp [h, alookup]
  | cons q rest ih =>
      obtain ⟨k', v⟩ := q
      by_cases hk : k' = k
      · subst hk
        simp [aupdate, alookup] at h ⊢
        rcases h with h | h
        · exact Or.inr (by simp [h])
        · exact Or.inl (Or.inr h)
      · simp [aupdate, hk] at h
        rcases h with h | h
        · simp [h]
        · rcases ih h with h2 | h2
          · exact Or.inl (List.mem_cons_of_mem _ h2)
          · simp [alookup, hk, h2]

theorem aadjust_eq_aupdate {l : List (K × W)} {k : K} {w : W}
    (h : alookup l k = some w) (f : W → W) (d : W) :
    aadjust l k f = aupdate l k f d := by
  induction l with
  | nil => simp [alookup] at h
  | cons p rest ih =>
      obtain ⟨k', v⟩ := p
      by_cases hk : k' = k
      · simp [aadjust, aupdate, hk]
      · simp [alookup, hk] at h
        simp [aadjust, aupdate, hk, ih h]

theorem aadjust_none {l : List (K × W)} {k : K} (h : alookup l k = none)
    (f : W → W) : aadjust l k f = l := by
  induction l with
  | nil => simp [aadjust]
  | cons p rest ih =>
      obtain ⟨k', v⟩ := p
      by_cases hk : k' = k
      · simp [alookup, hk] at h
      · simp [alookup, hk] at h
        simp [aadjust, hk, ih h]

theorem aupdate_id {l : List (K × W)} {k : K} {w : W}
    (h : alookup l k = some w) (f : W → W) (hf : f w = w) (d : W) :
    aupdate l k f d = l := by
  induction l with
  | nil => simp [alookup] at h
  | cons p rest ih =>
      obtain ⟨k', v⟩ := p
      by_cases hk : k' = k
      · simp [alookup, hk] at h
        subst h
        simp [aupdate, hk, hf]
      · simp [alookup, hk] at h
        simp [aupdate, hk, ih h]

theorem aupdate_aupdate (l : List (K × W)) (k : K) (f g : W → W) (d : W) :
    aupdate (aupdate l k f d) k g d = aupdate l k (fun w => g (f w)) d := by
  induction l with
  | nil => simp [aupdate]
  | cons p rest ih =>
      obtain ⟨k', v⟩ := p
      by_cases hk : k' = k
      · simp [aupdate, hk]
      · simp [aupdate, hk, ih]

theorem aupdate_congr (l : List (K × W)) (k : K) (f g : W → W) (d : W)
    (h : f ((alookup l k).getD d) = g ((alookup l k).getD d)) :
    aupdate l k f d = aupdate l k g d := by
  induction l with
  | nil => simp [alookup] at h; simp [aupdate, h]
  | cons p rest ih =>
      obtain ⟨k', v⟩ := p
      by_cases hk : k' = k
      · simp [alookup, hk] at h
        simp [aupdate, hk, h]
      · simp [alookup, hk] at h
        simp [aupdate, hk, ih h]

theorem sum_aupdate (l : List (K × Nat)) (k : K) (f : Nat → Nat) :
    ((aupdate l k f 0).map Prod.snd).sum + (alookup l k).getD 0 =
    (l.map Prod.snd).sum + f ((alookup l k).getD 0) := by
  induction l with
  | nil => simp [aupdate, alookup]
  | cons p rest ih =>
      obtain ⟨k', v⟩ := p
      by_cases hk : k' = k
      · simp [aupdate, alookup, hk]
        omega
      · simp [aupdate, alookup, hk] at ih ⊢
        omega

theorem alookup_le_sum {l : List (K × Nat)} {k : K} {v : Nat}
    (h : alookup l k = some v) : v ≤ (l.map Prod.snd).sum := by
  induction l with
  | nil => simp [alookup] at h
  | cons p rest ih =>
      obtain ⟨k', w⟩ := p
      by_cases hk : k' = k
      · simp [alookup, hk] at h
        subst h
        simp
      · simp [alookup, hk] at h
        have := ih h
        simp
        omega

theorem countP_aupdate_const (l : List (K × W)) (k : K) (v d : W)
    (P : K × W → Bool) (hd : P (k, d) = false) :
    ((aupdate l k (fun _ => v) d).countP P) +
      (if P (k, (alookup l k).getD d) then 1 else 0) =
    l.countP P + (if P (k, v) then 1 else 0) := by
  induction l with
  | nil => simp [aupdate, alookup, List.countP_cons, hd]
  | cons p rest ih =>
      obtain ⟨k', w⟩ := p
      by_cases hk : k' = k
      · subst hk
        simp [aupdate, alookup, List.countP_cons]
        omega
      · simp [aupdate, alookup, hk, List.countP_cons] at ih ⊢
        omega

end AssocLemmas

/-
Lemmas about alternation and the per-target switch-event stream.
-/

theorem flipS_flipS (e : SwitchState) : flipS (flipS e) = e := by
  cases e <;> rfl

/-- the state expected at position `n` of a strict alternation starting
with `e`. -/
def expAt (e : SwitchState) (n : Nat) : SwitchState :=
  if n % 2 = 0 then e else flipS e

theorem expAt_flip (e : SwitchState) (n : Nat) :
    expAt (flipS e) n = expAt e (n + 1) := by
  rcases Nat.mod_two_eq_zero_or_one n with h | h
  · have h2 : (n + 1) % 2 = 1 := by omega
    simp [expAt, h, h2]
  · have h2 : (n + 1) % 2 = 0 := by omega
    simp [expAt, h, h2, flipS_flipS]

theorem altFrom_append (l : List SwitchState) (e x : SwitchState) :
    altFrom e (l ++ [x]) = (altFrom e l && decide (x = expAt e l.length)) := by
  induction l generalizing e with
  | nil => simp [altFrom, expAt]
  | cons y l ih =>
      simp [altFrom, ih (flipS e), expAt_flip, Bool.and_assoc]

theorem nextExp_eq_expAt (l : List SwitchState) :
    nextExp l = expAt SwitchState.Active l.length := by
  simp [nextExp, expAt, flipS]

theorem nextExp_append_one (l : List SwitchState) (x : SwitchState) :
    nextExp (l ++ [x]) = flipS (nextExp l) := by
  rcases Nat.mod_two_eq_zero_or_one l.length with h | h
  · have h2 : (l.length + 1) % 2 = 1 := by omega
    simp [nextExp, h, h2, flipS]
  · have h2 : (l.length + 1) % 2 = 0 := by omega
    simp [nextExp, h, h2, flipS]

section EventStream

variable {F S V : Type} [DecidableEq F] [DecidableEq S] [DecidableEq V]

theorem switchEventsFor_append (s : S) (l1 l2 : List (ControlEvent F S V)) :
    switchEventsFor s (l1 ++ l2) =
      switchEventsFor s l1 ++ switchEventsFor s l2 := by
  simp [switchEventsFor, List.filterMap_append]

theorem switchEventsFor_nil (s : S) :
    switchEventsFor (F := F) (V := V) s [] = [] := rfl

theorem switchEventsFor_fireMap (s : S) (l : List F) :
    switchEventsFor (V := V) s (l.map ControlEvent.Fire) = [] := by
  induction l with
  | nil => rfl
  | cons a l ih => simp [switchEventsFor, ih]

theorem switchEventsFor_valueMap (s : S) (l : List V) (f : V → Rat) :
    switchEventsFor (F := F) s (l.map (fun t => ControlEvent.Value t (f t))) = [] := by
  induction l with
  | nil => rfl
  | cons a l ih => simp [switchEventsFor, ih]

theorem switchEventsFor_switch_single (s t : S) (st : SwitchState) :
    switchEventsFor (F := F) (V := V) s [ControlEvent.Switch t st] =
      if t = s then [st] else [] := by
  by_cases h : t = s <;> simp [switchEventsFor, h]

theorem motionFold_events [ValueTargetTrait V] (c : Controls F S V)
    (mapping : List V) (p : Rat × List (ControlEvent F S V)) :
    (∃ tail, (motionFold c mapping p).2 = p.2 ++ tail) ∧
    ∀ s, switchEventsFor s (motionFold c mapping p).2 = switchEventsFor s p.2 := by
  induction mapping generalizing p with
  | nil => exact ⟨⟨[], by simp [motionFold]⟩, fun s => by simp [motionFold]⟩
  | cons t mapping ih =>
      obtain ⟨v0, evs⟩ := p
      by_cases h : v0 = 0
      · have e1 : motionFold c (t :: mapping) (v0, evs) = motionFold c mapping (v0, evs) := by
          simp [motionFold, h]
        rw [e1]
        exact ih (v0, evs)
      · have e1 : motionFold c (t :: mapping) (v0, evs) =
            motionFold c mapping
              (v0 * (((alookup c.value_factors t).getD 1) * ValueTargetTrait.base_factor t),
               evs ++ [ControlEvent.Value t
                 (v0 * (((alookup c.value_factors t).getD 1) * ValueTargetTrait.base_factor t))]) := by
          simp [motionFold, h]
        rw [e1]
        obtain ⟨⟨tail, htail⟩, hsw⟩ := ih _
        constructor
        · refine ⟨ControlEvent.Value t
              (v0 * (((alookup c.value_factors t).getD 1) *
                ValueTargetTrait.base_factor t)) :: tail, ?_⟩
          rw [htail]
          simp
        · intro s
          rw [hsw s, switchEventsFor_append]
          simp [switchEventsFor]

end EventStream

/-
Behavioral specifications of the switch-counter primitives and the loops over
`while_down` sets.
-/

section SwitchPrimitives

variable {F S V : Type} [DecidableEq F] [DecidableEq S] [DecidableEq V]

theorem increase_count_self (t : S) (sc : List (S × Nat))
    (evs : List (ControlEvent F S V)) :
    (alookup (increase_switch_target_counter t sc evs).1 t).getD 0 =
      (alookup sc t).getD 0 + 1 := by
  simp [increase_switch_target_counter, alookup_aupdate_self]

theorem increase_count_ne (t s : S) (hst : s ≠ t) (sc : List (S × Nat))
    (evs : List (ControlEvent F S V)) :
    alookup (increase_switch_target_counter t sc evs).1 s = alookup sc s := by
  simp [increase_switch_target_counter, alookup_aupdate_ne _ _ _ hst]

theorem increase_events (t : S) (sc : List (S × Nat))
    (evs : List (ControlEvent F S V)) :
    (increase_switch_target_counter t sc evs).2 =
      evs ++ (if (alookup sc t).getD 0 = 0 then
        [ControlEvent.Switch t SwitchState.Active] else []) := by
  by_cases h : (alookup sc t).getD 0 = 0 <;>
    simp [increase_switch_target_counter, h]

theorem decrease_count_self (t : S) (sc : List (S × Nat))
    (evs : List (ControlEvent F S V)) :
    (alookup (decrease_switch_target_counter t sc evs).1 t).getD 0 =
      (alookup sc t).getD 0 - 1 := by
  simp [decrease_switch_target_counter, alookup_aupdate_self]

theorem decrease_count_ne (t s : S) (hst : s ≠ t) (sc : List (S × Nat))
    (evs : List (ControlEvent F S V)) :
    alookup (decrease_switch_target_counter t sc evs).1 s = alookup sc s := by
  simp [decrease_switch_target_counter, alookup_aupdate_ne _ _ _ hst]

theorem decrease_events (t : S) (sc : List (S × Nat))
    (evs : List (ControlEvent F S V)) :
    (decrease_switch_target_counter t sc evs).2 =
      evs ++ (if (alookup sc t).getD 0 - 1 = 0 then
        [ControlEvent.Switch t SwitchState.Inactive] else []) := by
  by_cases h : (alookup sc t).getD 0 - 1 = 0 <;>
    simp [decrease_switch_target_counter, h]

theorem incFold_cons (t : S) (ts : List S) (sc : List (S × Nat))
    (evs : List (ControlEvent F S V)) :
    incFold (t :: ts) sc evs =
      incFold ts (increase_switch_target_counter t sc evs).1
        (increase_switch_target_counter t sc evs).2 := by
  simp [incFold]

theorem decFold_cons (t : S) (ts : List S) (sc : List (S × Nat))
    (evs : List (ControlEvent F S V)) :
    decFold (t :: ts) sc evs =
      decFold ts (decrease_switch_target_counter t sc evs).1
        (decrease_switch_target_counter t sc evs).2 := by
  simp [decFold]

theorem incFold_count (ts : List S) (hnd : ts.Nodup) (sc : List (S × Nat))
    (evs : List (ControlEvent F S V)) (s : S) :
    (alookup (incFold ts sc evs).1 s).getD 0 =
      (alookup sc s).getD 0 + (if s ∈ ts then 1 else 0) := by
  induction ts generalizing sc evs with
  | nil => simp [incFold]
  | cons t ts ih =>
      rw [incFold_cons]
      rcases List.nodup_cons.mp hnd with ⟨hnt, hnd'⟩
      by_cases hs : s = t
      · subst hs
        rw [ih hnd' _ _]
        simp [increase_count_self, hnt]
      · rw [ih hnd' _ _]
        have := increase_count_ne (F := F) (V := V) t s hs sc evs
        simp [this, hs]

theorem incFold_events (ts : List S) (hnd : ts.Nodup) (sc : List (S × Nat))
    (evs : List (ControlEvent F S V)) (s : S) :
    switchEventsFor s (incFold ts sc evs).2 =
      switchEventsFor s evs ++
        (if s ∈ ts ∧ (alookup sc s).getD 0 = 0 then [SwitchState.Active] else []) := by
  induction ts generalizing sc evs with
  | nil => simp [incFold]
  | cons t ts ih =>
      rw [incFold_cons]
      rcases List.nodup_cons.mp hnd with ⟨hnt, hnd'⟩
      rw [ih hnd' _ _]
      by_cases hs : s = t
      · subst hs
        rw [increase_events]
        rw [switchEventsFor_append]
        by_cases h0 : (alookup sc s).getD 0 = 0
        · simp [h0, switchEventsFor_switch_single, hnt]
        · simp [h0, switchEventsFor_nil, hnt]
      · have hc := increase_count_ne (F := F) (V := V) t s hs sc evs
        have hts : ¬ t = s := fun h => hs h.symm
        rw [increase_events, switchEventsFor_append]
        by_cases h0 : (alookup sc t).getD 0 = 0
        · simp [h0, switchEventsFor_switch_single, hts, hc, hs]
        · simp [h0, switchEventsFor_nil, hc, hs]

theorem incFold_tail (ts : List S) (sc : List (S × Nat))
    (evs : List (ControlEvent F S V)) :
    ∃ tail, (incFold ts sc evs).2 = evs ++ tail := by
  induction ts generalizing sc evs with
  | nil => exact ⟨[], by simp [incFold]⟩
  | cons t ts ih =>
      rw [incFold_cons]
      obtain ⟨tail, htail⟩ := ih (increase_switch_target_counter t sc evs).1
        (increase_switch_target_counter t sc evs).2
      rw [htail, increase_events]
      by_cases h0 : (alookup sc t).getD 0 = 0
      · exact ⟨ControlEvent.Switch t SwitchState.Active :: tail, by simp [h0]⟩
      · exact ⟨tail, by simp [h0]⟩

theorem decFold_count (ts : List S) (hnd : ts.Nodup) (sc : List (S × Nat))
    (evs : List (ControlEvent F S V))
    (hpos : ∀ s ∈ ts, 0 < (alookup sc s).getD 0) (s : S) :
    (alookup (decFold ts sc evs).1 s).getD 0 =
      (alookup sc s).getD 0 - (if s ∈ ts then 1 else 0) := by
  induction ts generalizing sc evs with
  | nil => simp [decFold]
  | cons t ts ih =>
      rw [decFold_cons]
      rcases List.nodup_cons.mp hnd with ⟨hnt, hnd'⟩
      have hpos' : ∀ x ∈ ts, 0 < (alookup (decrease_switch_target_counter t sc
          (F := F) (V := V) evs).1 x).getD 0 := by
        intro x hx
        have hxt : x ≠ t := fun h => hnt (h ▸ hx)
        rw [decrease_count_ne t x hxt]
        exact hpos x (List.mem_cons_of_mem _ hx)
      by_cases hs : s = t
      · subst hs
        rw [ih hnd' _ _ hpos']
        simp [decrease_count_self, hnt]
      · rw [ih hnd' _ _ hpos']
        have := decrease_count_ne (F := F) (V := V) t s hs sc evs
        simp [this, hs]

theorem decFold_events (ts : List S) (hnd : ts.Nodup) (sc : List (S × Nat))
    (evs : List (ControlEvent F S V))
    (hpos : ∀ s ∈ ts, 0 < (alookup sc s).getD 0) (s : S) :
    switchEventsFor s (decFold ts sc evs).2 =
      switchEventsFor s evs ++
        (if s ∈ ts ∧ (alookup sc s).getD 0 = 1 then [SwitchState.Inactive] else []) := by
  induction ts generalizing sc evs with
  | nil => simp [decFold]
  | cons t ts ih =>
      rw [decFold_cons]
      rcases List.nodup_cons.mp hnd with ⟨hnt, hnd'⟩
      have hpos' : ∀ x ∈ ts, 0 < (alookup (decrease_switch_target_counter t sc
          (F := F) (V := V) evs).1 x).getD 0 := by
        intro x hx
        have hxt : x ≠ t := fun h => hnt (h ▸ hx)
        rw [decrease_count_ne t x hxt]
        exact hpos x (List.mem_cons_of_mem _ hx)
      rw [ih hnd' _ _ hpos']
      have hpt := hpos t (List.mem_cons_self t ts)
      by_cases hs : s = t
      · subst hs
        rw [decrease_events, switchEventsFor_append]
        by_cases h1 : (alookup sc s).getD 0 = 1
        · simp [h1, switchEventsFor_switch_single, hnt]
        · have : ¬ ((alookup sc s).getD 0 - 1 = 0) := by omega
          simp [this, h1, switchEventsFor_nil, hnt]
      · have hc := decrease_count_ne (F := F) (V := V) t s hs sc evs
        have hts : ¬ t = s := fun h => hs h.symm
        rw [decrease_events, switchEventsFor_append]
        by_cases h1 : (alookup sc t).getD 0 - 1 = 0
        · simp [h1, switchEventsFor_switch_single, hts, hc, hs]
        · simp [h1, switchEventsFor_nil, hc, hs]

theorem decFold_tail (ts : List S) (sc : List (S × Nat))
    (evs : List (ControlEvent F S V)) :
    ∃ tail, (decFold ts sc evs).2 = evs ++ tail := by
  induction ts generalizing sc evs with
  | nil => exact ⟨[], by simp [decFold]⟩
  | cons t ts ih =>
      rw [decFold_cons]
      obtain ⟨tail, htail⟩ := ih (decrease_switch_target_counter t sc evs).1
        (decrease_switch_target_counter t sc evs).2
      rw [htail, decrease_events]
      by_cases h0 : (alookup sc t).getD 0 - 1 = 0
      · exact ⟨ControlEvent.Switch t SwitchState.Inactive :: tail, by simp [h0]⟩
      · exact ⟨tail, by simp [h0]⟩

end SwitchPrimitives

/-
Per-operation step shapes: what one operation may do to the switch stream and
the switch counter of one fixed target.
-/

section StepShapes

variable {F S V : Type} [DecidableEq F] [DecidableEq S] [DecidableEq V]

/-- press-like step: either the stream for `s` is untouched and the counter
keeps its positivity, or the counter crosses 0→positive and exactly one
Active is appended. -/
def stepUp (c c' : Controls F S V) (s : S) : Prop :=
  (switchEventsFor s c'.events = switchEventsFor s c.events ∧
    (0 < switchCountOf c s ↔ 0 < switchCountOf c' s)) ∨
  (switchEventsFor s c'.events = switchEventsFor s c.events ++ [SwitchState.Active] ∧
    switchCountOf c s = 0 ∧ 0 < switchCountOf c' s)

/-- release-like step: either untouched, or the counter crosses positive→0 and
exactly one Inactive is appended. -/
def stepDown (c c' : Controls F S V) (s : S) : Prop :=
  (switchEventsFor s c'.events = switchEventsFor s c.events ∧
    (0 < switchCountOf c s ↔ 0 < switchCountOf c' s)) ∨
  (switchEventsFor s c'.events = switchEventsFor s c.events ++ [SwitchState.Inactive] ∧
    0 < switchCountOf c s ∧ switchCountOf c' s = 0)

/-- any single operation realizes one of the two shapes. -/
def stepTri (c c' : Controls F S V) (s : S) : Prop :=
  stepUp c c' s ∨ stepDown c c' s

theorem stepUp_refl_of_eq {c c' : Controls F S V} {s : S}
    (he : switchEventsFor s c'.events = switchEventsFor s c.events)
    (hc : switchCountOf c' s = switchCountOf c s) : stepUp c c' s :=
  Or.inl ⟨he, by rw [hc]⟩

theorem stepDown_refl_of_eq {c c' : Controls F S V} {s : S}
    (he : switchEventsFor s c'.events = switchEventsFor s c.events)
    (hc : switchCountOf c' s = switchCountOf c s) : stepDown c c' s :=
  Or.inl ⟨he, by rw [hc]⟩

/-- the alternation part of `SwitchWf` survives any of the three step
shapes. -/
theorem alt_preserved {L L' : List SwitchState} {cnt cnt' : Nat}
    (halt : altFrom SwitchState.Active L = true)
    (hne : nextExp L = (if 0 < cnt then SwitchState.Inactive else SwitchState.Active))
    (hcase : (L' = L ∧ (0 < cnt ↔ 0 < cnt')) ∨
             (L' = L ++ [SwitchState.Active] ∧ cnt = 0 ∧ 0 < cnt') ∨
             (L' = L ++ [SwitchState.Inactive] ∧ 0 < cnt ∧ cnt' = 0)) :
    altFrom SwitchState.Active L' = true ∧
      nextExp L' = (if 0 < cnt' then SwitchState.Inactive else SwitchState.Active) := by
  rcases hcase with ⟨hL, hiff⟩ | ⟨hL, h0, hpos⟩ | ⟨hL, hpos, h0⟩
  · subst hL
    refine ⟨halt, ?_⟩
    by_cases h : 0 < cnt'
    · rw [hne, if_pos (hiff.mpr h), if_pos h]
    · rw [hne, if_neg (fun hh => h (hiff.mp hh)), if_neg h]
  · subst hL
    have hnA : nextExp L = SwitchState.Active := by
      rw [hne, if_neg (by omega)]
    constructor
    · rw [altFrom_append, halt, ← nextExp_eq_expAt, hnA]
      simp
    · rw [nextExp_append_one, hnA, if_pos hpos]
      rfl
  · subst hL
    have hnI : nextExp L = SwitchState.Inactive := by
      rw [hne, if_pos hpos]
    constructor
    · rw [altFrom_append, halt, ← nextExp_eq_expAt, hnI]
      simp
    · rw [nextExp_append_one, hnI, if_neg (by omega)]
      rfl

theorem dataOf_aupdate_self (c : Controls F S V) (trigger : HoldableTrigger)
    (data' : HoldableTriggerData F S) :
    dataOf { c with holdable_trigger_data := aupdate c.holdable_trigger_data trigger (fun _ => data') HoldableTriggerData.new } trigger = data' := by
  simp [dataOf, alookup_aupdate_self]

theorem dataOf_aupdate_ne (c : Controls F S V) (trigger t : HoldableTrigger)
    (h : t ≠ trigger) (data' : HoldableTriggerData F S) :
    dataOf { c with holdable_trigger_data := aupdate c.holdable_trigger_data trigger (fun _ => data') HoldableTriggerData.new } t = dataOf c t := by
  simp [dataOf, alookup_aupdate_ne _ _ _ h]

theorem dataOf_wf {c : Controls F S V} (hwf : EntriesWf c) (t : HoldableTrigger) :
    (dataOf c t).while_down.Nodup ∧
      (dataOf c t).overall_counter = sumDC (dataOf c t) := by
  unfold dataOf
  cases h : alookup c.holdable_trigger_data t with
  | none => simp [HoldableTriggerData.new, sumDC]
  | some data =>
      simpa using hwf _ (alookup_mem h)

theorem activeCount_pos {c : Controls F S V} {t : HoldableTrigger} {s : S}
    (hs : s ∈ (dataOf c t).while_down) (hoc : 0 < (dataOf c t).overall_counter) :
    0 < activeCount c s := by
  unfold dataOf at hs hoc
  cases h : alookup c.holdable_trigger_data t with
  | none =>
      rw [h] at hs
      simp [HoldableTriggerData.new] at hs
  | some data =>
      rw [h] at hs hoc
      simp at hs hoc
      have hmem := alookup_mem h
      unfold activeCount
      rw [List.countP_pos_iff]
      exact ⟨(t, data), hmem, by simp [hs, hoc]⟩

theorem activeCount_aupdate (c : Controls F S V) (trigger : HoldableTrigger)
    (data' : HoldableTriggerData F S) (s : S) :
    activeCount { c with holdable_trigger_data := aupdate c.holdable_trigger_data trigger (fun _ => data') HoldableTriggerData.new } s +
      (if s ∈ (dataOf c trigger).while_down ∧
          0 < (dataOf c trigger).overall_counter then 1 else 0) =
    activeCount c s +
      (if s ∈ data'.while_down ∧ 0 < data'.overall_counter then 1 else 0) := by
  have h := countP_aupdate_const c.holdable_trigger_data trigger data'
    HoldableTriggerData.new
    (fun p => decide (s ∈ p.2.while_down) && decide (0 < p.2.overall_counter))
    (by simp [HoldableTriggerData.new])
  simpa [activeCount, dataOf, Bool.and_eq_true, decide_eq_true_iff] using h

theorem entriesWf_aupdate {c : Controls F S V} {trigger : HoldableTrigger}
    {data' : HoldableTriggerData F S} (hwf : EntriesWf c)
    (hnd : data'.while_down.Nodup)
    (hsum : data'.overall_counter = sumDC data') :
    EntriesWf { c with holdable_trigger_data := aupdate c.holdable_trigger_data trigger (fun _ => data') HoldableTriggerData.new } := by
  intro p hp
  rcases aupdate_mem hp with h | h
  · exact hwf p h
  · rw [h]
    exact ⟨hnd, hsum⟩

end StepShapes

section HandleLemmas

variable {F S V : Type} [DecidableEq F] [DecidableEq S] [DecidableEq V]

theorem sumDC_pressData (d : HoldableTriggerData F S) (dev : DeviceId) :
    sumDC (pressData d dev) = sumDC d + 1 := by
  have h := sum_aupdate d.device_counters dev (fun n => n + 1)
  simp [sumDC, pressData] at h ⊢
  omega

theorem sumDC_releaseData (d : HoldableTriggerData F S) (dev : DeviceId)
    (h : 0 < deviceCountOf d dev) :
    sumDC (releaseData d dev) = sumDC d - 1 := by
  have h2 := sum_aupdate d.device_counters dev (fun n => n - 1)
  simp [sumDC, releaseData, deviceCountOf] at h2 h ⊢
  omega

theorem deviceCountOf_le_sumDC (d : HoldableTriggerData F S) (dev : DeviceId) :
    deviceCountOf d dev ≤ sumDC d := by
  unfold deviceCountOf sumDC
  cases h : alookup d.device_counters dev with
  | none => simp
  | some v => simpa using alookup_le_sum h

theorem switchWf_of_step {c c' : Controls F S V} (hsw : SwitchWf c)
    (hdom : ∀ s : S, activeCount c' s ≤ switchCountOf c' s)
    (hstep : ∀ s : S, stepTri c c' s) : SwitchWf c' := by
  intro s
  obtain ⟨_, halt, hne⟩ := hsw s
  have hcase :
      (switchEventsFor s c'.events = switchEventsFor s c.events ∧
        (0 < switchCountOf c s ↔ 0 < switchCountOf c' s)) ∨
      (switchEventsFor s c'.events =
          switchEventsFor s c.events ++ [SwitchState.Active] ∧
        switchCountOf c s = 0 ∧ 0 < switchCountOf c' s) ∨
      (switchEventsFor s c'.events =
          switchEventsFor s c.events ++ [SwitchState.Inactive] ∧
        0 < switchCountOf c s ∧ switchCountOf c' s = 0) := by
    rcases hstep s with (h | h) | (h | h)
    · exact Or.inl h
    · exact Or.inr (Or.inl h)
    · exact Or.inl h
    · exact Or.inr (Or.inr h)
  obtain ⟨h1, h2⟩ := alt_preserved halt hne hcase
  exact ⟨hdom s, h1, h2⟩

end HandleLemmas

section HandleEquations

variable {F S V : Type} [DecidableEq F] [DecidableEq S] [DecidableEq V]

theorem handle_pressed_interior (c : Controls F S V) (trigger : HoldableTrigger)
    (device_id : DeviceId) (hoc : (dataOf c trigger).overall_counter ≠ 0) :
    c.handle_holdable_trigger trigger device_id ElementState.Pressed =
      { c with holdable_trigger_data := aupdate c.holdable_trigger_data trigger (fun _ => pressData (dataOf c trigger) device_id) HoldableTriggerData.new } := by
  simp only [dataOf] at hoc
  have hne : (pressData ((alookup c.holdable_trigger_data trigger).getD
      HoldableTriggerData.new) device_id).overall_counter ≠ 1 := by
    simp [pressData]
    omega
  simp [Controls.handle_holdable_trigger, dataOf, hne]

theorem handle_pressed_edge (c : Controls F S V) (trigger : HoldableTrigger)
    (device_id : DeviceId) (hoc : (dataOf c trigger).overall_counter = 0) :
    c.handle_holdable_trigger trigger device_id ElementState.Pressed =
      { c with
        holdable_trigger_data := aupdate c.holdable_trigger_data trigger (fun _ => pressData (dataOf c trigger) device_id) HoldableTriggerData.new,
        switch_counter := (incFold (dataOf c trigger).while_down c.switch_counter (c.events ++ (dataOf c trigger).on_press.map ControlEvent.Fire)).1,
        events := (incFold (dataOf c trigger).while_down c.switch_counter (c.events ++ (dataOf c trigger).on_press.map ControlEvent.Fire)).2 } := by
  simp only [dataOf] at hoc
  have hne : ¬ ((pressData ((alookup c.holdable_trigger_data trigger).getD
      HoldableTriggerData.new) device_id).overall_counter ≠ 1) := by
    simp [pressData, hoc]
  simp [Controls.handle_holdable_trigger, dataOf, hne, pressData, hoc]

theorem handle_released_interior (c : Controls F S V) (trigger : HoldableTrigger)
    (device_id : DeviceId) (hoc : (dataOf c trigger).overall_counter - 1 ≠ 0) :
    c.handle_holdable_trigger trigger device_id ElementState.Released =
      { c with holdable_trigger_data := aupdate c.holdable_trigger_data trigger (fun _ => releaseData (dataOf c trigger) device_id) HoldableTriggerData.new } := by
  simp only [dataOf] at hoc
  have hne : (releaseData ((alookup c.holdable_trigger_data trigger).getD
      HoldableTriggerData.new) device_id).overall_counter ≠ 0 := by
    simp [releaseData]
    omega
  simp [Controls.handle_holdable_trigger, dataOf, hne]

theorem handle_released_edge (c : Controls F S V) (trigger : HoldableTrigger)
    (device_id : DeviceId) (hoc : (dataOf c trigger).overall_counter - 1 = 0) :
    c.handle_holdable_trigger trigger device_id ElementState.Released =
      { c with
        holdable_trigger_data := aupdate c.holdable_trigger_data trigger (fun _ => releaseData (dataOf c trigger) device_id) HoldableTriggerData.new,
        switch_counter := (decFold (dataOf c trigger).while_down c.switch_counter c.events).1,
        events := (decFold (dataOf c trigger).while_down c.switch_counter c.events).2 } := by
  simp only [dataOf] at hoc
  have hne : ¬ ((releaseData ((alookup c.holdable_trigger_data trigger).getD
      HoldableTriggerData.new) device_id).overall_counter ≠ 0) := by
    simp [releaseData, hoc]
  simp [Controls.handle_holdable_trigger, dataOf, hne, releaseData, hoc]

end HandleEquations

section HandleSpec

variable {F S V : Type} [DecidableEq F] [DecidableEq S] [DecidableEq V]

theorem handle_pressed_spec (c : Controls F S V) (trigger : HoldableTrigger)
    (device_id : DeviceId) (hwf : Wf c) :
    Wf (c.handle_holdable_trigger trigger device_id ElementState.Pressed) ∧
    ∀ s : S, stepUp c (c.handle_holdable_trigger trigger device_id ElementState.Pressed) s := by
  obtain ⟨hent, hsw⟩ := hwf
  obtain ⟨hwd_nd, hsum⟩ := dataOf_wf hent trigger
  by_cases hoc : (dataOf c trigger).overall_counter = 0
  · -- 0→1 edge: fires then switch increments over the while-down set
    rw [handle_pressed_edge c trigger device_id hoc]
    have hcnt : ∀ s : S,
        switchCountOf { c with
          holdable_trigger_data := aupdate c.holdable_trigger_data trigger (fun _ => pressData (dataOf c trigger) device_id) HoldableTriggerData.new,
          switch_counter := (incFold (dataOf c trigger).while_down c.switch_counter (c.events ++ (dataOf c trigger).on_press.map ControlEvent.Fire)).1,
          events := (incFold (dataOf c trigger).while_down c.switch_counter (c.events ++ (dataOf c trigger).on_press.map ControlEvent.Fire)).2 } s =
          switchCountOf c s +
            (if s ∈ (dataOf c trigger).while_down then 1 else 0) := by
      intro s
      simp only [switchCountOf]
      exact incFold_count _ hwd_nd _ _ s
    have hev : ∀ s : S,
        switchEventsFor s ((incFold (dataOf c trigger).while_down c.switch_counter (c.events ++ (dataOf c trigger).on_press.map ControlEvent.Fire)).2) =
          switchEventsFor s c.events ++
            (if s ∈ (dataOf c trigger).while_down ∧ switchCountOf c s = 0
              then [SwitchState.Active] else []) := by
      intro s
      rw [incFold_events _ hwd_nd _ _ s, switchEventsFor_append,
        switchEventsFor_fireMap]
      simp [switchCountOf]
    have hact : ∀ s : S,
        activeCount { c with
          holdable_trigger_data := aupdate c.holdable_trigger_data trigger (fun _ => pressData (dataOf c trigger) device_id) HoldableTriggerData.new,
          switch_counter := (incFold (dataOf c trigger).while_down c.switch_counter (c.events ++ (dataOf c trigger).on_press.map ControlEvent.Fire)).1,
          events := (incFold (dataOf c trigger).while_down c.switch_counter (c.events ++ (dataOf c trigger).on_press.map ControlEvent.Fire)).2 } s =
          activeCount c s +
            (if s ∈ (dataOf c trigger).while_down then 1 else 0) := by
      intro s
      have hre : activeCount { c with
          holdable_trigger_data := aupdate c.holdable_trigger_data trigger (fun _ => pressData (dataOf c trigger) device_id) HoldableTriggerData.new,
          switch_counter := (incFold (dataOf c trigger).while_down c.switch_counter (c.events ++ (dataOf c trigger).on_press.map ControlEvent.Fire)).1,
          events := (incFold (dataOf c trigger).while_down c.switch_counter (c.events ++ (dataOf c trigger).on_press.map ControlEvent.Fire)).2 } s =
          activeCount { c with holdable_trigger_data := aupdate c.holdable_trigger_data trigger (fun _ => pressData (dataOf c trigger) device_id) HoldableTriggerData.new } s := rfl
      rw [hre]
      have hwd2 : (pressData (dataOf c trigger) device_id).while_down =
          (dataOf c trigger).while_down := rfl
      have hoc2 : (pressData (dataOf c trigger) device_id).overall_counter =
          (dataOf c trigger).overall_counter + 1 := rfl
      have h := activeCount_aupdate c trigger (pressData (dataOf c trigger) device_id) s
      rw [hwd2, hoc2, hoc] at h
      by_cases hmem : s ∈ (dataOf c trigger).while_down
      · simp [hmem] at h ⊢
        omega
      · simp [hmem] at h ⊢
        omega
    have hstep : ∀ s : S, stepUp c { c with
        holdable_trigger_data := aupdate c.holdable_trigger_data trigger (fun _ => pressData (dataOf c trigger) device_id) HoldableTriggerData.new,
        switch_counter := (incFold (dataOf c trigger).while_down c.switch_counter (c.events ++ (dataOf c trigger).on_press.map ControlEvent.Fire)).1,
        events := (incFold (dataOf c trigger).while_down c.switch_counter (c.events ++ (dataOf c trigger).on_press.map ControlEvent.Fire)).2 } s := by
      intro s
      by_cases hmem : s ∈ (dataOf c trigger).while_down
      · by_cases h0 : switchCountOf c s = 0
        · refine Or.inr ⟨?_, h0, ?_⟩
          · show switchEventsFor s ((incFold _ _ _).2) = _
            rw [hev s]
            simp [hmem, h0]
          · rw [hcnt s]
            simp [hmem]
        · refine Or.inl ⟨?_, ?_⟩
          · show switchEventsFor s ((incFold _ _ _).2) = _
            rw [hev s]
            simp [hmem, h0]
          · rw [hcnt s]
            simp [hmem]
            omega
      · refine Or.inl ⟨?_, ?_⟩
        · show switchEventsFor s ((incFold _ _ _).2) = _
          rw [hev s]
          simp [hmem]
        · rw [hcnt s]
          simp [hmem]
    refine ⟨⟨?_, ?_⟩, hstep⟩
    · intro p hp
      rcases aupdate_mem hp with h | h
      · exact hent p h
      · rw [h]
        constructor
        · simpa [pressData] using hwd_nd
        · rw [sumDC_pressData]
          simp [pressData]
          omega
    · refine switchWf_of_step hsw ?_ (fun s => Or.inl (hstep s))
      intro s
      rw [hact s, hcnt s]
      have := (hsw s).1
      by_cases hmem : s ∈ (dataOf c trigger).while_down <;> simp [hmem] <;> omega
  · -- interior press: only counters of `trigger` move
    rw [handle_pressed_interior c trigger device_id hoc]
    have hact : ∀ s : S,
        activeCount { c with holdable_trigger_data := aupdate c.holdable_trigger_data trigger (fun _ => pressData (dataOf c trigger) device_id) HoldableTriggerData.new } s =
          activeCount c s := by
      intro s
      have hwd2 : (pressData (dataOf c trigger) device_id).while_down =
          (dataOf c trigger).while_down := rfl
      have hoc2 : (pressData (dataOf c trigger) device_id).overall_counter =
          (dataOf c trigger).overall_counter + 1 := rfl
      have h := activeCount_aupdate c trigger (pressData (dataOf c trigger) device_id) s
      have hpos : 0 < (dataOf c trigger).overall_counter := Nat.pos_of_ne_zero hoc
      rw [hwd2, hoc2] at h
      by_cases hmem : s ∈ (dataOf c trigger).while_down
      · simp [hmem, hpos] at h
        omega
      · simp [hmem] at h
        omega
    have hstep : ∀ s : S, stepUp c { c with holdable_trigger_data := aupdate c.holdable_trigger_data trigger (fun _ => pressData (dataOf c trigger) device_id) HoldableTriggerData.new } s := by
      intro s
      exact stepUp_refl_of_eq rfl rfl
    refine ⟨⟨?_, ?_⟩, hstep⟩
    · intro p hp
      rcases aupdate_mem hp with h | h
      · exact hent p h
      · rw [h]
        constructor
        · simpa [pressData] using hwd_nd
        · rw [sumDC_pressData]
          simp [pressData]
          omega
    · refine switchWf_of_step hsw ?_ (fun s => Or.inl (hstep s))
      intro s
      rw [hact s]
      exact (hsw s).1

theorem handle_released_spec (c : Controls F S V) (trigger : HoldableTrigger)
    (device_id : DeviceId) (hwf : Wf c)
    (hdc : 0 < deviceCountOf (dataOf c trigger) device_id) :
    Wf (c.handle_holdable_trigger trigger device_id ElementState.Released) ∧
    ∀ s : S, stepDown c (c.handle_holdable_trigger trigger device_id ElementState.Released) s := by
  obtain ⟨hent, hsw⟩ := hwf
  obtain ⟨hwd_nd, hsum⟩ := dataOf_wf hent trigger
  have hocpos : 0 < (dataOf c trigger).overall_counter := by
    have := deviceCountOf_le_sumDC (dataOf c trigger) device_id
    omega
  have hwd2 : (releaseData (dataOf c trigger) device_id).while_down =
      (dataOf c trigger).while_down := rfl
  have hoc2 : (releaseData (dataOf c trigger) device_id).overall_counter =
      (dataOf c trigger).overall_counter - 1 := rfl
  by_cases hoc : (dataOf c trigger).overall_counter - 1 = 0
  · -- 1→0 edge: switch decrements over the while-down set
    have hoc1 : (dataOf c trigger).overall_counter = 1 := by omega
    rw [handle_released_edge c trigger device_id hoc]
    have hpos : ∀ s ∈ (dataOf c trigger).while_down,
        0 < (alookup c.switch_counter s).getD 0 := by
      intro s hs
      have h1 : 0 < activeCount c s := activeCount_pos hs hocpos
      have h2 := (hsw s).1
      simp only [switchCountOf] at h2
      omega
    have hcnt : ∀ s : S,
        switchCountOf { c with
          holdable_trigger_data := aupdate c.holdable_trigger_data trigger (fun _ => releaseData (dataOf c trigger) device_id) HoldableTriggerData.new,
          switch_counter := (decFold (dataOf c trigger).while_down c.switch_counter c.events).1,
          events := (decFold (dataOf c trigger).while_down c.switch_counter c.events).2 } s =
          switchCountOf c s -
            (if s ∈ (dataOf c trigger).while_down then 1 else 0) := by
      intro s
      simp only [switchCountOf]
      exact decFold_count _ hwd_nd _ _ hpos s
    have hev : ∀ s : S,
        switchEventsFor s ((decFold (dataOf c trigger).while_down c.switch_counter c.events).2) =
          switchEventsFor s c.events ++
            (if s ∈ (dataOf c trigger).while_down ∧ switchCountOf c s = 1
              then [SwitchState.Inactive] else []) := by
      intro s
      rw [decFold_events _ hwd_nd _ _ hpos s]
      simp [switchCountOf]
    have hact : ∀ s : S,
        activeCount { c with
          holdable_trigger_data := aupdate c.holdable_trigger_data trigger (fun _ => releaseData (dataOf c trigger) device_id) HoldableTriggerData.new,
          switch_counter := (decFold (dataOf c trigger).while_down c.switch_counter c.events).1,
          events := (decFold (dataOf c trigger).while_down c.switch_counter c.events).2 } s +
          (if s ∈ (dataOf c trigger).while_down then 1 else 0) =
          activeCount c s := by
      intro s
      have hre : activeCount { c with
          holdable_trigger_data := aupdate c.holdable_trigger_data trigger (fun _ => releaseData (dataOf c trigger) device_id) HoldableTriggerData.new,
          switch_counter := (decFold (dataOf c trigger).while_down c.switch_counter c.events).1,
          events := (decFold (dataOf c trigger).while_down c.switch_counter c.events).2 } s =
          activeCount { c with holdable_trigger_data := aupdate c.holdable_trigger_data trigger (fun _ => releaseData (dataOf c trigger) device_id) HoldableTriggerData.new } s := rfl
      rw [hre]
      have h := activeCount_aupdate c trigger (releaseData (dataOf c trigger) device_id) s
      rw [hwd2, hoc2, hoc1] at h
      by_cases hmem : s ∈ (dataOf c trigger).while_down
      · simp [hmem] at h ⊢
        omega
      · simp [hmem] at h ⊢
        omega
    have hstep : ∀ s : S, stepDown c { c with
        holdable_trigger_data := aupdate c.holdable_trigger_data trigger (fun _ => releaseData (dataOf c trigger) device_id) HoldableTriggerData.new,
        switch_counter := (decFold (dataOf c trigger).while_down c.switch_counter c.events).1,
        events := (decFold (dataOf c trigger).while_down c.switch_counter c.events).2 } s := by
      intro s
      by_cases hmem : s ∈ (dataOf c trigger).while_down
      · have hscpos : 0 < switchCountOf c s := by
          have := hpos s hmem
          simpa [switchCountOf] using this
        by_cases h1 : switchCountOf c s = 1
        · refine Or.inr ⟨?_, hscpos, ?_⟩
          · show switchEventsFor s ((decFold _ _ _).2) = _
            rw [hev s]
            simp [hmem, h1]
          · rw [hcnt s]
            simp [hmem, h1]
        · refine Or.inl ⟨?_, ?_⟩
          · show switchEventsFor s ((decFold _ _ _).2) = _
            rw [hev s]
            simp [hmem, h1]
          · rw [hcnt s]
            simp [hmem]
            omega
      · refine Or.inl ⟨?_, ?_⟩
        · show switchEventsFor s ((decFold _ _ _).2) = _
          rw [hev s]
          simp [hmem]
        · rw [hcnt s]
          simp [hmem]
    refine ⟨⟨?_, ?_⟩, hstep⟩
    · intro p hp
      rcases aupdate_mem hp with h | h
      · exact hent p h
      · rw [h]
        constructor
        · simpa [releaseData] using hwd_nd
        · rw [sumDC_releaseData _ _ hdc, hoc2]
          omega
    · refine switchWf_of_step hsw ?_ (fun s => Or.inr (hstep s))
      intro s
      have h1 := hact s
      have h2 := hcnt s
      have h3 := (hsw s).1
      by_cases hmem : s ∈ (dataOf c trigger).while_down
      · have h4 : 0 < activeCount c s := activeCount_pos hmem hocpos
        simp [hmem] at h1 h2
        omega
      · simp [hmem] at h1 h2
        omega
  · -- interior release: only counters of `trigger` move
    rw [handle_released_interior c trigger device_id hoc]
    have hact : ∀ s : S,
        activeCount { c with holdable_trigger_data := aupdate c.holdable_trigger_data trigger (fun _ => releaseData (dataOf c trigger) device_id) HoldableTriggerData.new } s =
          activeCount c s := by
      intro s
      have h := activeCount_aupdate c trigger (releaseData (dataOf c trigger) device_id) s
      have hocm : 0 < (dataOf c trigger).overall_counter - 1 := Nat.pos_of_ne_zero hoc
      rw [hwd2, hoc2] at h
      by_cases hmem : s ∈ (dataOf c trigger).while_down
      · simp [hmem, hocpos, hocm] at h
        omega
      · simp [hmem] at h
        omega
    have hstep : ∀ s : S, stepDown c { c with holdable_trigger_data := aupdate c.holdable_trigger_data trigger (fun _ => releaseData (dataOf c trigger) device_id) HoldableTriggerData.new } s := by
      intro s
      exact stepDown_refl_of_eq rfl rfl
    refine ⟨⟨?_, ?_⟩, hstep⟩
    · intro p hp
      rcases aupdate_mem hp with h | h
      · exact hent p h
      · rw [h]
        constructor
        · simpa [releaseData] using hwd_nd
        · rw [sumDC_releaseData _ _ hdc, hoc2]
          omega
    · refine switchWf_of_step hsw ?_ (fun s => Or.inr (hstep s))
      intro s
      rw [hact s]
      exact (hsw s).1

end HandleSpec

section OpHelpers

variable {F S V : Type} [DecidableEq F] [DecidableEq S] [DecidableEq V]

theorem countP_aupdate_invariant {K W : Type} [DecidableEq K]
    (l : List (K × W)) (k : K) (f : W → W) (d : W) (P : K × W → Bool)
    (hfd : P (k, f d) = false) (hf : ∀ w, P (k, f w) = P (k, w)) :
    (aupdate l k f d).countP P = l.countP P := by
  induction l with
  | nil => simp [aupdate, List.countP_cons, hfd]
  | cons p rest ih =>
      obtain ⟨k', v⟩ := p
      by_cases hk : k' = k
      · subst hk
        simp [aupdate, List.countP_cons, hf v]
      · simp [aupdate, hk, List.countP_cons, ih]

theorem aadjust_mem {K W : Type} [DecidableEq K] {l : List (K × W)} {k : K}
    {f : W → W} {p : K × W} (h : p ∈ aadjust l k f) :
    p ∈ l ∨ ∃ w, (k, w) ∈ l ∧ p = (k, f w) := by
  induction l with
  | nil => simp [aadjust] at h
  | cons q rest ih =>
      obtain ⟨k', v⟩ := q
      by_cases hk : k' = k
      · subst hk
        simp [aadjust] at h
        rcases h with h | h
        · exact Or.inr ⟨v, by simp, by simp [h]⟩
        · exact Or.inl (List.mem_cons_of_mem _ h)
      · simp [aadjust, hk] at h
        rcases h with h | h
        · simp [h]
        · rcases ih h with h2 | ⟨w, hw, hp⟩
          · exact Or.inl (List.mem_cons_of_mem _ h2)
          · exact Or.inr ⟨w, List.mem_cons_of_mem _ hw, hp⟩

theorem countP_map_le {A : Type} (l : List A) (g : A → A) (P : A → Bool)
    (h : ∀ a ∈ l, P (g a) = true → P a = true) :
    (l.map g).countP P ≤ l.countP P := by
  induction l with
  | nil => simp
  | cons a l ih =>
      have ha := h a (List.mem_cons_self a l)
      have hl := ih (fun x hx => h x (List.mem_cons_of_mem _ hx))
      by_cases hg : P (g a) = true
      · simp only [List.map_cons, List.countP_cons, hg, ha hg, if_true]
        omega
      · rw [Bool.not_eq_true] at hg
        simp only [List.map_cons, List.countP_cons, hg, Bool.false_eq_true,
          if_false]
        by_cases hp : P a = true
        · simp only [hp, if_true]
          omega
        · rw [Bool.not_eq_true] at hp
          simp only [hp, Bool.false_eq_true, if_false]
          omega

theorem stepUp_trans {c1 c2 c3 : Controls F S V} {s : S}
    (h12 : stepUp c1 c2 s) (h23 : stepUp c2 c3 s) : stepUp c1 c3 s := by
  rcases h12 with ⟨he, hc⟩ | ⟨he, h0, hp⟩ <;>
    rcases h23 with ⟨he', hc'⟩ | ⟨he', h0', hp'⟩
  · exact Or.inl ⟨he'.trans he, hc.trans hc'⟩
  · refine Or.inr ⟨by rw [he', he], ?_, hp'⟩
    by_contra hne
    exact absurd (hc.mp (Nat.pos_of_ne_zero hne)) (by omega)
  · exact Or.inr ⟨by rw [he', he], h0, hc'.mp hp⟩
  · exact absurd hp (by omega)

theorem stepDown_trans {c1 c2 c3 : Controls F S V} {s : S}
    (h12 : stepDown c1 c2 s) (h23 : stepDown c2 c3 s) : stepDown c1 c3 s := by
  rcases h12 with ⟨he, hc⟩ | ⟨he, hp, h0⟩ <;>
    rcases h23 with ⟨he', hc'⟩ | ⟨he', hp', h0'⟩
  · exact Or.inl ⟨he'.trans he, hc.trans hc'⟩
  · exact Or.inr ⟨by rw [he', he], hc.mpr hp', h0'⟩
  · refine Or.inr ⟨by rw [he', he], hp, ?_⟩
    by_contra hne
    exact absurd (hc'.mpr (Nat.pos_of_ne_zero hne)) (by omega)
  · exact absurd hp' (by omega)

theorem wf_stepRefl {c c' : Controls F S V} (hwf : Wf c)
    (hact : ∀ s : S, activeCount c' s = activeCount c s)
    (hentP : EntriesWf c')
    (hsc : c'.switch_counter = c.switch_counter)
    (hse : ∀ s : S, switchEventsFor s c'.events = switchEventsFor s c.events) :
    Wf c' ∧ ∀ s : S, stepTri c c' s := by
  obtain ⟨hent, hsw⟩ := hwf
  have hcnt : ∀ s : S, switchCountOf c' s = switchCountOf c s := by
    intro s
    simp [switchCountOf, hsc]
  have hstep : ∀ s : S, stepTri c c' s :=
    fun s => Or.inl (stepUp_refl_of_eq (hse s) (hcnt s))
  refine ⟨⟨hentP, switchWf_of_step hsw ?_ hstep⟩, hstep⟩
  intro s
  rw [hact s, hcnt s]
  exact (hsw s).1

theorem handle_dataOf_ne (c : Controls F S V) (trigger : HoldableTrigger)
    (device_id : DeviceId) (st : ElementState) (t : HoldableTrigger)
    (ht : t ≠ trigger) :
    dataOf (c.handle_holdable_trigger trigger device_id st) t = dataOf c t := by
  cases st with
  | Pressed =>
      by_cases hoc : (dataOf c trigger).overall_counter = 0
      · rw [handle_pressed_edge c trigger device_id hoc]
        simp [dataOf, alookup_aupdate_ne _ _ _ ht]
      · rw [handle_pressed_interior c trigger device_id hoc]
        simp [dataOf, alookup_aupdate_ne _ _ _ ht]
  | Released =>
      by_cases hoc : (dataOf c trigger).overall_counter - 1 = 0
      · rw [handle_released_edge c trigger device_id hoc]
        simp [dataOf, alookup_aupdate_ne _ _ _ ht]
      · rw [handle_released_interior c trigger device_id hoc]
        simp [dataOf, alookup_aupdate_ne _ _ _ ht]

theorem handle_dataOf_sets (c : Controls F S V) (trigger : HoldableTrigger)
    (device_id : DeviceId) (st : ElementState) (t : HoldableTrigger) :
    (dataOf (c.handle_holdable_trigger trigger device_id st) t).on_press =
      (dataOf c t).on_press ∧
    (dataOf (c.handle_holdable_trigger trigger device_id st) t).while_down =
      (dataOf c t).while_down := by
  by_cases ht : t = trigger
  · subst ht
    cases st with
    | Pressed =>
        by_cases hoc : (dataOf c t).overall_counter = 0
        · rw [handle_pressed_edge c t device_id hoc]
          constructor <;> simp [dataOf, alookup_aupdate_self, pressData]
        · rw [handle_pressed_interior c t device_id hoc]
          constructor <;> simp [dataOf, alookup_aupdate_self, pressData]
    | Released =>
        by_cases hoc : (dataOf c t).overall_counter - 1 = 0
        · rw [handle_released_edge c t device_id hoc]
          constructor <;> simp [dataOf, alookup_aupdate_self, releaseData]
        · rw [handle_released_interior c t device_id hoc]
          constructor <;> simp [dataOf, alookup_aupdate_self, releaseData]
  · rw [handle_dataOf_ne c trigger device_id st t ht]
    exact ⟨rfl, rfl⟩

theorem handle_frame (c : Controls F S V) (trigger : HoldableTrigger)
    (device_id : DeviceId) (st : ElementState) :
    (c.handle_holdable_trigger trigger device_id st).axis_mappings =
      c.axis_mappings ∧
    (c.handle_holdable_trigger trigger device_id st).mouse_wheel_mapping =
      c.mouse_wheel_mapping ∧
    (c.handle_holdable_trigger trigger device_id st).value_factors =
      c.value_factors ∧
    ∃ tail, (c.handle_holdable_trigger trigger device_id st).events =
      c.events ++ tail := by
  cases st with
  | Pressed =>
      by_cases hoc : (dataOf c trigger).overall_counter = 0
      · rw [handle_pressed_edge c trigger device_id hoc]
        refine ⟨rfl, rfl, rfl, ?_⟩
        obtain ⟨tail, htail⟩ := incFold_tail (dataOf c trigger).while_down
          c.switch_counter (c.events ++ (dataOf c trigger).on_press.map ControlEvent.Fire)
        exact ⟨(dataOf c trigger).on_press.map ControlEvent.Fire ++ tail,
          by simp [htail]⟩
      · rw [handle_pressed_interior c trigger device_id hoc]
        exact ⟨rfl, rfl, rfl, [], by simp⟩
  | Released =>
      by_cases hoc : (dataOf c trigger).overall_counter - 1 = 0
      · rw [handle_released_edge c trigger device_id hoc]
        refine ⟨rfl, rfl, rfl, ?_⟩
        obtain ⟨tail, htail⟩ := decFold_tail (dataOf c trigger).while_down
          c.switch_counter c.events
        exact ⟨tail, htail⟩
      · rw [handle_released_interior c trigger device_id hoc]
        exact ⟨rfl, rfl, rfl, [], by simp⟩

end OpHelpers

section SetLemmas

variable {A : Type} [DecidableEq A]

theorem hsInsert_nodup {l : List A} (h : l.Nodup) (a : A) :
    (hsInsert l a).1.Nodup := by
  unfold hsInsert
  by_cases hmem : a ∈ l
  · simpa [hmem] using h
  · simp only [hmem, if_false]
    exact List.Nodup.append h (List.nodup_singleton a)
      (by simpa [List.disjoint_singleton] using hmem)

theorem hsInsert_mem (l : List A) (a s : A) :
    s ∈ (hsInsert l a).1 ↔ s ∈ l ∨ s = a := by
  unfold hsInsert
  by_cases hmem : a ∈ l
  · simp only [hmem, if_true]
    constructor
    · exact Or.inl
    · rintro (h | h)
      · exact h
      · rw [h]
        exact hmem
  · simp [hmem]

theorem hsRemove_nodup {l : List A} (h : l.Nodup) (a : A) :
    (hsRemove l a).1.Nodup := by
  unfold hsRemove
  by_cases hmem : a ∈ l
  · simpa [hmem] using h.erase a
  · simpa [hmem] using h

theorem hsRemove_mem {l : List A} (hnd : l.Nodup) (a s : A) :
    s ∈ (hsRemove l a).1 ↔ s ∈ l ∧ s ≠ a := by
  unfold hsRemove
  by_cases hmem : a ∈ l
  · simp only [hmem, if_true]
    rw [List.Nodup.mem_erase_iff hnd]
    tauto
  · simp only [hmem, if_false]
    constructor
    · intro h
      refine ⟨h, ?_⟩
      intro he
      rw [he] at h
      exact hmem h
    · exact fun h => h.1

end SetLemmas

section SwitchBindEquations

variable {F S V : Type} [DecidableEq F] [DecidableEq S] [DecidableEq V]

theorem add_switch_bind_silent (c : Controls F S V) (trigger : HoldableTrigger)
    (target : S)
    (h : target ∈ (dataOf c trigger).while_down ∨
      (dataOf c trigger).overall_counter = 0) :
    c.add_switch_bind trigger target =
      { c with holdable_trigger_data := aupdate c.holdable_trigger_data trigger (fun _ => { dataOf c trigger with while_down := (hsInsert (dataOf c trigger).while_down target).1 }) HoldableTriggerData.new } := by
  rcases h with hmem | hoc
  · simp only [dataOf] at hmem
    simp [Controls.add_switch_bind, dataOf, hsInsert, hmem]
  · simp only [dataOf] at hoc
    simp [Controls.add_switch_bind, dataOf, hsInsert, hoc]

theorem add_switch_bind_emit (c : Controls F S V) (trigger : HoldableTrigger)
    (target : S) (hmem : target ∉ (dataOf c trigger).while_down)
    (hoc : 0 < (dataOf c trigger).overall_counter) :
    c.add_switch_bind trigger target =
      { c with
        holdable_trigger_data := aupdate c.holdable_trigger_data trigger (fun _ => { dataOf c trigger with while_down := (dataOf c trigger).while_down ++ [target] }) HoldableTriggerData.new,
        switch_counter := (increase_switch_target_counter target c.switch_counter c.events).1,
        events := (increase_switch_target_counter target c.switch_counter c.events).2 } := by
  simp only [dataOf] at hmem hoc
  simp [Controls.add_switch_bind, dataOf, hsInsert, hmem, hoc]

theorem remove_switch_bind_absent (c : Controls F S V)
    (trigger : HoldableTrigger) (target : S)
    (h : alookup c.holdable_trigger_data trigger = none) :
    c.remove_switch_bind trigger target = c := by
  simp [Controls.remove_switch_bind, h]

theorem remove_switch_bind_silent (c : Controls F S V)
    (trigger : HoldableTrigger) (target : S) {data : HoldableTriggerData F S}
    (hsome : alookup c.holdable_trigger_data trigger = some data)
    (h : target ∉ data.while_down ∨ data.overall_counter = 0) :
    c.remove_switch_bind trigger target =
      { c with holdable_trigger_data := aadjust c.holdable_trigger_data trigger (fun _ => { data with while_down := (hsRemove data.while_down target).1 }) } := by
  rcases h with hmem | hoc
  · simp [Controls.remove_switch_bind, hsome, hsRemove, hmem]
  · simp [Controls.remove_switch_bind, hsome, hsRemove, hoc]

theorem remove_switch_bind_emit (c : Controls F S V)
    (trigger : HoldableTrigger) (target : S) {data : HoldableTriggerData F S}
    (hsome : alookup c.holdable_trigger_data trigger = some data)
    (hmem : target ∈ data.while_down) (hoc : 0 < data.overall_counter) :
    c.remove_switch_bind trigger target =
      { c with
        holdable_trigger_data := aadjust c.holdable_trigger_data trigger (fun _ => { data with while_down := data.while_down.erase target }),
        switch_counter := (decrease_switch_target_counter target c.switch_counter c.events).1,
        events := (decrease_switch_target_counter target c.switch_counter c.events).2 } := by
  simp [Controls.remove_switch_bind, hsome, hsRemove, hmem, hoc]

end SwitchBindEquations

section BindSpecs

variable {F S V : Type} [DecidableEq F] [DecidableEq S] [DecidableEq V]

theorem countP_aadjust_invariant {K W : Type} [DecidableEq K]
    (l : List (K × W)) (k : K) (f : W → W) (P : K × W → Bool)
    (hf : ∀ w, P (k, f w) = P (k, w)) :
    (aadjust l k f).countP P = l.countP P := by
  induction l with
  | nil => simp [aadjust]
  | cons p rest ih =>
      obtain ⟨k', v⟩ := p
      by_cases hk : k' = k
      · subst hk
        simp [aadjust, List.countP_cons, hf v]
      · simp [aadjust, hk, List.countP_cons, ih]

theorem set_factor_spec (c : Controls F S V) (target : V) (factor : Rat)
    (hwf : Wf c) :
    Wf (c.set_factor target factor) ∧
      ∀ s : S, stepTri c (c.set_factor target factor) s :=
  wf_stepRefl hwf (fun _ => rfl) (fun p hp => hwf.1 p hp) rfl (fun _ => rfl)

theorem add_fire_bind_spec (c : Controls F S V) (trigger : FireTrigger)
    (target : F) (hwf : Wf c) :
    Wf (c.add_fire_bind trigger target) ∧
      ∀ s : S, stepTri c (c.add_fire_bind trigger target) s := by
  cases trigger with
  | Holdable ht =>
      have hw := dataOf_wf hwf.1 ht
      apply wf_stepRefl hwf
      · intro s
        exact countP_aupdate_invariant _ _ _ _ _
          (by simp [HoldableTriggerData.new]) (fun w => rfl)
      · intro p hp
        rcases aupdate_mem hp with h | h
        · exact hwf.1 p h
        · rw [h]
          exact ⟨hw.1, hw.2⟩
      · rfl
      · intro s
        rfl
  | MouseWheelTick dir =>
      cases dir
      all_goals
        exact wf_stepRefl hwf (fun _ => rfl) (fun p hp => hwf.1 p hp) rfl
          (fun _ => rfl)

theorem remove_fire_bind_spec (c : Controls F S V) (trigger : FireTrigger)
    (target : F) (hwf : Wf c) :
    Wf (c.remove_fire_bind trigger target) ∧
      ∀ s : S, stepTri c (c.remove_fire_bind trigger target) s := by
  cases trigger with
  | Holdable ht =>
      apply wf_stepRefl hwf
      · intro s
        exact countP_aadjust_invariant _ _ _ _ (fun w => rfl)
      · intro p hp
        rcases aadjust_mem hp with h | ⟨w, hw, hp2⟩
        · exact hwf.1 p h
        · rw [hp2]
          have := hwf.1 _ hw
          exact ⟨this.1, this.2⟩
      · rfl
      · intro s
        rfl
  | MouseWheelTick dir =>
      cases dir
      all_goals
        exact wf_stepRefl hwf (fun _ => rfl) (fun p hp => hwf.1 p hp) rfl
          (fun _ => rfl)

theorem add_value_bind_spec (c : Controls F S V) (trigger : ValueTrigger)
    (target : V) (hwf : Wf c) :
    Wf (c.add_value_bind trigger target) ∧
      ∀ s : S, stepTri c (c.add_value_bind trigger target) s := by
  cases trigger
  all_goals
    exact wf_stepRefl hwf (fun _ => rfl) (fun p hp => hwf.1 p hp) rfl
      (fun _ => rfl)

theorem remove_value_bind_spec (c : Controls F S V) (trigger : ValueTrigger)
    (target : V) (hwf : Wf c) :
    Wf (c.remove_value_bind trigger target) ∧
      ∀ s : S, stepTri c (c.remove_value_bind trigger target) s := by
  cases trigger
  all_goals
    exact wf_stepRefl hwf (fun _ => rfl) (fun p hp => hwf.1 p hp) rfl
      (fun _ => rfl)

end BindSpecs

section SwitchBindSpecs

variable {F S V : Type} [DecidableEq F] [DecidableEq S] [DecidableEq V]

theorem add_switch_bind_spec (c : Controls F S V) (trigger : HoldableTrigger)
    (target : S) (hwf : Wf c) :
    Wf (c.add_switch_bind trigger target) ∧
      ∀ s : S, stepUp c (c.add_switch_bind trigger target) s := by
  obtain ⟨hent, hsw⟩ := hwf
  obtain ⟨hwd_nd, hsum⟩ := dataOf_wf hent trigger
  by_cases hcond : target ∉ (dataOf c trigger).while_down ∧
      0 < (dataOf c trigger).overall_counter
  · obtain ⟨hmem, hoc⟩ := hcond
    rw [add_switch_bind_emit c trigger target hmem hoc]
    have hcnt : ∀ s : S, switchCountOf { c with
        holdable_trigger_data := aupdate c.holdable_trigger_data trigger (fun _ => { dataOf c trigger with while_down := (dataOf c trigger).while_down ++ [target] }) HoldableTriggerData.new,
        switch_counter := (increase_switch_target_counter target c.switch_counter c.events).1,
        events := (increase_switch_target_counter target c.switch_counter c.events).2 } s =
        switchCountOf c s + (if s = target then 1 else 0) := by
      intro s
      by_cases hs : s = target
      · rw [hs]
        show (alookup (increase_switch_target_counter target c.switch_counter c.events).1 target).getD 0 =
          (alookup c.switch_counter target).getD 0 + (if (target : S) = target then 1 else 0)
        rw [increase_count_self]
        simp
      · show (alookup (increase_switch_target_counter target c.switch_counter c.events).1 s).getD 0 =
          (alookup c.switch_counter s).getD 0 + (if s = target then 1 else 0)
        rw [increase_count_ne target s hs]
        simp [hs]
    have hev : ∀ s : S, switchEventsFor s (increase_switch_target_counter target c.switch_counter c.events).2 =
        switchEventsFor s c.events ++
          (if s = target ∧ switchCountOf c s = 0 then [SwitchState.Active] else []) := by
      intro s
      rw [increase_events, switchEventsFor_append]
      by_cases hs : s = target
      · rw [hs]
        by_cases h0 : (alookup c.switch_counter target).getD 0 = 0
        · simp [h0, switchEventsFor_switch_single, switchCountOf]
        · simp [h0, switchEventsFor_nil, switchCountOf]
      · have hts : ¬ (target = s) := fun h => hs h.symm
        by_cases h0 : (alookup c.switch_counter target).getD 0 = 0
        · simp [h0, switchEventsFor_switch_single, hts, hs]
        · simp [h0, switchEventsFor_nil, hs]
    have hact : ∀ s : S, activeCount { c with
        holdable_trigger_data := aupdate c.holdable_trigger_data trigger (fun _ => { dataOf c trigger with while_down := (dataOf c trigger).while_down ++ [target] }) HoldableTriggerData.new,
        switch_counter := (increase_switch_target_counter target c.switch_counter c.events).1,
        events := (increase_switch_target_counter target c.switch_counter c.events).2 } s =
        activeCount c s + (if s = target then 1 else 0) := by
      intro s
      have hre : activeCount { c with
          holdable_trigger_data := aupdate c.holdable_trigger_data trigger (fun _ => { dataOf c trigger with while_down := (dataOf c trigger).while_down ++ [target] }) HoldableTriggerData.new,
          switch_counter := (increase_switch_target_counter target c.switch_counter c.events).1,
          events := (increase_switch_target_counter target c.switch_counter c.events).2 } s =
          activeCount { c with holdable_trigger_data := aupdate c.holdable_trigger_data trigger (fun _ => { dataOf c trigger with while_down := (dataOf c trigger).while_down ++ [target] }) HoldableTriggerData.new } s := rfl
      rw [hre]
      have h := activeCount_aupdate c trigger
        { dataOf c trigger with while_down := (dataOf c trigger).while_down ++ [target] } s
      by_cases hs : s = target
      · rw [hs] at h ⊢
        simp [hmem, hoc, List.mem_append] at h
        simp [h]
      · by_cases hmem2 : s ∈ (dataOf c trigger).while_down
        · simp [hs, hmem2, hoc, List.mem_append] at h ⊢
          omega
        · simp [hs, hmem2, List.mem_append] at h ⊢
          omega
    have hstep : ∀ s : S, stepUp c { c with
        holdable_trigger_data := aupdate c.holdable_trigger_data trigger (fun _ => { dataOf c trigger with while_down := (dataOf c trigger).while_down ++ [target] }) HoldableTriggerData.new,
        switch_counter := (increase_switch_target_counter target c.switch_counter c.events).1,
        events := (increase_switch_target_counter target c.switch_counter c.events).2 } s := by
      intro s
      by_cases hs : s = target
      · by_cases h0 : switchCountOf c s = 0
        · refine Or.inr ⟨?_, h0, ?_⟩
          · show switchEventsFor s (increase_switch_target_counter target c.switch_counter c.events).2 = _
            rw [hev s, if_pos ⟨hs, h0⟩]
          · rw [hcnt s, if_pos hs]
            omega
        · refine Or.inl ⟨?_, ?_⟩
          · show switchEventsFor s (increase_switch_target_counter target c.switch_counter c.events).2 = _
            rw [hev s, if_neg (fun hc => h0 hc.2)]
            simp
          · rw [hcnt s, if_pos hs]
            omega
      · refine Or.inl ⟨?_, ?_⟩
        · show switchEventsFor s (increase_switch_target_counter target c.switch_counter c.events).2 = _
          rw [hev s]
          simp [hs]
        · rw [hcnt s]
          simp [hs]
    refine ⟨⟨?_, ?_⟩, hstep⟩
    · intro p hp
      rcases aupdate_mem hp with h | h
      · exact hent p h
      · rw [h]
        constructor
        · exact List.Nodup.append hwd_nd (List.nodup_singleton target)
            (by simpa [List.disjoint_singleton] using hmem)
        · exact hsum
    · refine switchWf_of_step hsw ?_ (fun s => Or.inl (hstep s))
      intro s
      rw [hact s, hcnt s]
      have hd := (hsw s).1
      by_cases hs : s = target
      · rw [if_pos hs]
        omega
      · rw [if_neg hs]
        omega
  · have h' : target ∈ (dataOf c trigger).while_down ∨
        (dataOf c trigger).overall_counter = 0 := by
      by_cases hmem : target ∈ (dataOf c trigger).while_down
      · exact Or.inl hmem
      · refine Or.inr ?_
        by_contra hoc
        exact hcond ⟨hmem, Nat.pos_of_ne_zero hoc⟩
    rw [add_switch_bind_silent c trigger target h']
    have hact : ∀ s : S, activeCount { c with holdable_trigger_data := aupdate c.holdable_trigger_data trigger (fun _ => { dataOf c trigger with while_down := (hsInsert (dataOf c trigger).while_down target).1 }) HoldableTriggerData.new } s =
        activeCount c s := by
      intro s
      have h := activeCount_aupdate c trigger
        { dataOf c trigger with while_down := (hsInsert (dataOf c trigger).while_down target).1 } s
      rcases h' with hmem | hoc0
      · have hins : (hsInsert (dataOf c trigger).while_down target).1 =
            (dataOf c trigger).while_down := by
          simp [hsInsert, hmem]
        by_cases hcnd : s ∈ (dataOf c trigger).while_down ∧
            0 < (dataOf c trigger).overall_counter
        · have hcnd2 : s ∈ (hsInsert (dataOf c trigger).while_down target).1 ∧
              0 < (dataOf c trigger).overall_counter := by
            rw [hins]
            exact hcnd
          rw [if_pos hcnd, if_pos hcnd2] at h
          omega
        · have hcnd2 : ¬ (s ∈ (hsInsert (dataOf c trigger).while_down target).1 ∧
              0 < (dataOf c trigger).overall_counter) := by
            rw [hins]
            exact hcnd
          rw [if_neg hcnd, if_neg hcnd2] at h
          omega
      · have hn1 : ¬ (s ∈ (dataOf c trigger).while_down ∧
            0 < (dataOf c trigger).overall_counter) := by
          simp [hoc0]
        have hn2 : ¬ (s ∈ (hsInsert (dataOf c trigger).while_down target).1 ∧
            0 < (dataOf c trigger).overall_counter) := by
          simp [hoc0]
        rw [if_neg hn1, if_neg hn2] at h
        omega
    have hstep : ∀ s : S, stepUp c { c with holdable_trigger_data := aupdate c.holdable_trigger_data trigger (fun _ => { dataOf c trigger with while_down := (hsInsert (dataOf c trigger).while_down target).1 }) HoldableTriggerData.new } s :=
      fun s => stepUp_refl_of_eq rfl rfl
    refine ⟨⟨?_, ?_⟩, hstep⟩
    · intro p hp
      rcases aupdate_mem hp with h | h
      · exact hent p h
      · rw [h]
        exact ⟨hsInsert_nodup hwd_nd target, hsum⟩
    · refine switchWf_of_step hsw ?_ (fun s => Or.inl (hstep s))
      intro s
      rw [hact s]
      exact (hsw s).1

theorem remove_switch_bind_spec (c : Controls F S V)
    (trigger : HoldableTrigger) (target : S) (hwf : Wf c) :
    Wf (c.remove_switch_bind trigger target) ∧
      ∀ s : S, stepDown c (c.remove_switch_bind trigger target) s := by
  obtain ⟨hent, hsw⟩ := hwf
  cases hsome : alookup c.holdable_trigger_data trigger with
  | none =>
      rw [remove_switch_bind_absent c trigger target hsome]
      exact ⟨⟨hent, hsw⟩, fun s => stepDown_refl_of_eq rfl rfl⟩
  | some data =>
      have hd0 : dataOf c trigger = data := by simp [dataOf, hsome]
      have hwd_nd : data.while_down.Nodup := by
        have := dataOf_wf hent trigger
        rw [hd0] at this
        exact this.1
      have hsum : data.overall_counter = sumDC data := by
        have := dataOf_wf hent trigger
        rw [hd0] at this
        exact this.2
      by_cases hcond : target ∈ data.while_down ∧ 0 < data.overall_counter
      · obtain ⟨hmem, hoc⟩ := hcond
        rw [remove_switch_bind_emit c trigger target hsome hmem hoc]
        rw [aadjust_eq_aupdate hsome
          (fun _ => { data with while_down := data.while_down.erase target })
          HoldableTriggerData.new]
        have hscpos : 0 < switchCountOf c target := by
          have hap : 0 < activeCount c target := by
            apply activeCount_pos (t := trigger) <;> rw [hd0]
            · exact hmem
            · exact hoc
          have := (hsw target).1
          omega
        have hcnt : ∀ s : S, switchCountOf { c with
            holdable_trigger_data := aupdate c.holdable_trigger_data trigger (fun _ => { data with while_down := data.while_down.erase target }) HoldableTriggerData.new,
            switch_counter := (decrease_switch_target_counter target c.switch_counter c.events).1,
            events := (decrease_switch_target_counter target c.switch_counter c.events).2 } s =
            switchCountOf c s - (if s = target then 1 else 0) := by
          intro s
          by_cases hs : s = target
          · rw [hs]
            show (alookup (decrease_switch_target_counter target c.switch_counter c.events).1 target).getD 0 =
              (alookup c.switch_counter target).getD 0 - (if (target : S) = target then 1 else 0)
            rw [decrease_count_self]
            simp
          · show (alookup (decrease_switch_target_counter target c.switch_counter c.events).1 s).getD 0 =
              (alookup c.switch_counter s).getD 0 - (if s = target then 1 else 0)
            rw [decrease_count_ne target s hs]
            simp [hs]
        have hev : ∀ s : S, switchEventsFor s (decrease_switch_target_counter target c.switch_counter c.events).2 =
            switchEventsFor s c.events ++
              (if s = target ∧ switchCountOf c s = 1 then [SwitchState.Inactive] else []) := by
          intro s
          rw [decrease_events, switchEventsFor_append]
          have hpos' : 0 < (alookup c.switch_counter target).getD 0 := hscpos
          by_cases hs : s = target
          · rw [hs]
            by_cases h1 : switchCountOf c target = 1
            · have h1' : (alookup c.switch_counter target).getD 0 - 1 = 0 := by
                simp only [switchCountOf] at h1
                omega
              simp [h1', h1, switchEventsFor_switch_single]
            · have h1' : ¬ ((alookup c.switch_counter target).getD 0 - 1 = 0) := by
                simp only [switchCountOf] at h1
                omega
              simp [h1', h1, switchEventsFor_nil]
          · have hts : ¬ (target = s) := fun h => hs h.symm
            by_cases h1 : (alookup c.switch_counter target).getD 0 - 1 = 0
            · simp [h1, switchEventsFor_switch_single, hts, hs]
            · simp [h1, switchEventsFor_nil, hs]
        have hact : ∀ s : S, activeCount { c with
            holdable_trigger_data := aupdate c.holdable_trigger_data trigger (fun _ => { data with while_down := data.while_down.erase target }) HoldableTriggerData.new,
            switch_counter := (decrease_switch_target_counter target c.switch_counter c.events).1,
            events := (decrease_switch_target_counter target c.switch_counter c.events).2 } s +
            (if s = target then 1 else 0) = activeCount c s := by
          intro s
          have hre : activeCount { c with
              holdable_trigger_data := aupdate c.holdable_trigger_data trigger (fun _ => { data with while_down := data.while_down.erase target }) HoldableTriggerData.new,
              switch_counter := (decrease_switch_target_counter target c.switch_counter c.events).1,
              events := (decrease_switch_target_counter target c.switch_counter c.events).2 } s =
              activeCount { c with holdable_trigger_data := aupdate c.holdable_trigger_data trigger (fun _ => { data with while_down := data.while_down.erase target }) HoldableTriggerData.new } s := rfl
          rw [hre]
          have h := activeCount_aupdate c trigger
            { data with while_down := data.while_down.erase target } s
          rw [hd0] at h
          by_cases hs : s = target
          · have hc1 : s ∈ data.while_down ∧ 0 < data.overall_counter :=
              ⟨by rw [hs]; exact hmem, hoc⟩
            have hc2 : ¬ (s ∈ data.while_down.erase target ∧
                0 < data.overall_counter) := by
              intro hc
              exact (((List.Nodup.mem_erase_iff hwd_nd).mp hc.1).1) hs
            rw [if_pos hc1, if_neg hc2] at h
            rw [if_pos hs]
            omega
          · have hiff : s ∈ data.while_down.erase target ↔ s ∈ data.while_down := by
              rw [List.Nodup.mem_erase_iff hwd_nd]
              simp [hs]
            by_cases hc1 : s ∈ data.while_down ∧ 0 < data.overall_counter
            · have hc2 : s ∈ data.while_down.erase target ∧
                  0 < data.overall_counter := ⟨hiff.mpr hc1.1, hc1.2⟩
              rw [if_pos hc1, if_pos hc2] at h
              rw [if_neg hs]
              omega
            · have hc2 : ¬ (s ∈ data.while_down.erase target ∧
                  0 < data.overall_counter) := by
                intro hc
                exact hc1 ⟨hiff.mp hc.1, hc.2⟩
              rw [if_neg hc1, if_neg hc2] at h
              rw [if_neg hs]
              omega
        have hstep : ∀ s : S, stepDown c { c with
            holdable_trigger_data := aupdate c.holdable_trigger_data trigger (fun _ => { data with while_down := data.while_down.erase target }) HoldableTriggerData.new,
            switch_counter := (decrease_switch_target_counter target c.switch_counter c.events).1,
            events := (decrease_switch_target_counter target c.switch_counter c.events).2 } s := by
          intro s
          by_cases hs : s = target
          · by_cases h1 : switchCountOf c s = 1
            · refine Or.inr ⟨?_, by omega, ?_⟩
              · show switchEventsFor s (decrease_switch_target_counter target c.switch_counter c.events).2 = _
                rw [hev s, if_pos ⟨hs, h1⟩]
              · rw [hcnt s, if_pos hs]
                omega
            · have hscpos2 : 0 < switchCountOf c s := by
                rw [hs]
                exact hscpos
              refine Or.inl ⟨?_, ?_⟩
              · show switchEventsFor s (decrease_switch_target_counter target c.switch_counter c.events).2 = _
                rw [hev s, if_neg (fun hc => h1 hc.2)]
                simp
              · rw [hcnt s, if_pos hs]
                omega
          · refine Or.inl ⟨?_, ?_⟩
            · show switchEventsFor s (decrease_switch_target_counter target c.switch_counter c.events).2 = _
              rw [hev s, if_neg (fun hc => hs hc.1)]
              simp
            · rw [hcnt s, if_neg hs]
              omega
        refine ⟨⟨?_, ?_⟩, hstep⟩
        · intro p hp
          rcases aupdate_mem hp with h | h
          · exact hent p h
          · rw [h]
            exact ⟨hwd_nd.erase target, hsum⟩
        · refine switchWf_of_step hsw ?_ (fun s => Or.inr (hstep s))
          intro s
          have h1 := hact s
          have h2 := hcnt s
          have hd := (hsw s).1
          by_cases hs : s = target
          · rw [if_pos hs] at h1 h2
            have hap : 0 < activeCount c s := by
              rw [hs]
              apply activeCount_pos (t := trigger) <;> rw [hd0]
              · exact hmem
              · exact hoc
            omega
          · rw [if_neg hs] at h1 h2
            omega
      · have h' : target ∉ data.while_down ∨ data.overall_counter = 0 := by
          by_cases hmem : target ∈ data.while_down
          · refine Or.inr ?_
            by_contra hoc
            exact hcond ⟨hmem, Nat.pos_of_ne_zero hoc⟩
          · exact Or.inl hmem
        rw [remove_switch_bind_silent c trigger target hsome h']
        rw [aadjust_eq_aupdate hsome
          (fun _ => { data with while_down := (hsRemove data.while_down target).1 })
          HoldableTriggerData.new]
        have hact : ∀ s : S, activeCount { c with holdable_trigger_data := aupdate c.holdable_trigger_data trigger (fun _ => { data with while_down := (hsRemove data.while_down target).1 }) HoldableTriggerData.new } s =
            activeCount c s := by
          intro s
          have h := activeCount_aupdate c trigger
            { data with while_down := (hsRemove data.while_down target).1 } s
          rw [hd0] at h
          rcases h' with hmem | hoc0
          · have hrem : (hsRemove data.while_down target).1 = data.while_down := by
              simp [hsRemove, hmem]
            by_cases hcnd : s ∈ data.while_down ∧ 0 < data.overall_counter
            · have hcnd2 : s ∈ (hsRemove data.while_down target).1 ∧
                  0 < data.overall_counter := by
                rw [hrem]
                exact hcnd
              rw [if_pos hcnd, if_pos hcnd2] at h
              omega
            · have hcnd2 : ¬ (s ∈ (hsRemove data.while_down target).1 ∧
                  0 < data.overall_counter) := by
                rw [hrem]
                exact hcnd
              rw [if_neg hcnd, if_neg hcnd2] at h
              omega
          · have hn1 : ¬ (s ∈ data.while_down ∧ 0 < data.overall_counter) := by
              simp [hoc0]
            have hn2 : ¬ (s ∈ (hsRemove data.while_down target).1 ∧
                0 < data.overall_counter) := by
              simp [hoc0]
            rw [if_neg hn1, if_neg hn2] at h
            omega
        have hstep : ∀ s : S, stepDown c { c with holdable_trigger_data := aupdate c.holdable_trigger_data trigger (fun _ => { data with while_down := (hsRemove data.while_down target).1 }) HoldableTriggerData.new } s :=
          fun s => stepDown_refl_of_eq rfl rfl
        refine ⟨⟨?_, ?_⟩, hstep⟩
        · intro p hp
          rcases aupdate_mem hp with h | h
          · exact hent p h
          · rw [h]
            exact ⟨hsRemove_nodup hwd_nd target, hsum⟩
        · refine switchWf_of_step hsw ?_ (fun s => Or.inr (hstep s))
          intro s
          rw [hact s]
          exact (hsw s).1

end SwitchBindSpecs

section DeviceSpecs

variable {F S V : Type} [DecidableEq F] [DecidableEq S] [DecidableEq V]

theorem removeDeviceEntry_wd (device_id : DeviceId)
    (p : HoldableTrigger × HoldableTriggerData F S) :
    (removeDeviceEntry device_id p).2.while_down = p.2.while_down := by
  unfold removeDeviceEntry
  cases alookup p.2.device_counters device_id <;> rfl

theorem removeDeviceEntry_oc (device_id : DeviceId)
    (p : HoldableTrigger × HoldableTriggerData F S) :
    (removeDeviceEntry device_id p).2.overall_counter =
      p.2.overall_counter - deviceCountOf p.2 device_id := by
  unfold removeDeviceEntry deviceCountOf
  cases alookup p.2.device_counters device_id <;> rfl

theorem on_device_removed_spec (c : Controls F S V) (device_id : DeviceId)
    (hwf : Wf c) :
    Wf (c.on_device_removed device_id) ∧
      ∀ s : S, stepTri c (c.on_device_removed device_id) s := by
  obtain ⟨hent, hsw⟩ := hwf
  have hstep : ∀ s : S, stepTri c (c.on_device_removed device_id) s :=
    fun s => Or.inl (stepUp_refl_of_eq rfl rfl)
  refine ⟨⟨?_, ?_⟩, hstep⟩
  · intro p hp
    have hp2 : p ∈ c.holdable_trigger_data.map (removeDeviceEntry device_id) := hp
    obtain ⟨q, hq, hgq⟩ := List.mem_map.mp hp2
    obtain ⟨hnd, hsum⟩ := hent q hq
    rw [← hgq]
    constructor
    · rw [removeDeviceEntry_wd]
      exact hnd
    · rw [removeDeviceEntry_oc]
      unfold removeDeviceEntry
      cases halo : alookup q.2.device_counters device_id with
      | none =>
          simp [deviceCountOf, halo]
          omega
      | some dc =>
          have hle : dc ≤ (q.2.device_counters.map Prod.snd).sum :=
            alookup_le_sum halo
          have hs2 := sum_aupdate q.2.device_counters device_id (fun _ => 0)
          rw [halo] at hs2
          simp only [Option.getD_some] at hs2
          show q.2.overall_counter - deviceCountOf q.2 device_id =
            (List.map Prod.snd (aupdate q.2.device_counters device_id (fun _ => 0) 0)).sum
          unfold deviceCountOf
          rw [halo]
          simp only [Option.getD_some]
          unfold sumDC at hsum
          omega
  · refine switchWf_of_step hsw ?_ hstep
    intro s
    have hle : activeCount (c.on_device_removed device_id) s ≤ activeCount c s := by
      unfold activeCount
      apply countP_map_le
      intro a ha hpa
      simp only [Bool.and_eq_true, decide_eq_true_iff] at hpa ⊢
      rw [removeDeviceEntry_wd, removeDeviceEntry_oc] at hpa
      exact ⟨hpa.1, by omega⟩
    have hcnt : switchCountOf (c.on_device_removed device_id) s =
        switchCountOf c s := rfl
    rw [hcnt]
    exact le_trans hle (hsw s).1

theorem on_mouse_wheel_spec (c : Controls F S V) (device_id : DeviceId)
    (delta : MouseScrollDelta) (hwf : Wf c) :
    Wf (c.on_mouse_wheel device_id delta) ∧
      ∀ s : S, stepTri c (c.on_mouse_wheel device_id delta) s := by
  cases delta with
  | PixelDelta => exact ⟨hwf, fun s => Or.inl (stepUp_refl_of_eq rfl rfl)⟩
  | LineDelta x y =>
      apply wf_stepRefl hwf
      · intro s
        by_cases h1 : y < 0 <;> by_cases h2 : y > 0 <;>
          simp [Controls.on_mouse_wheel, h1, h2, activeCount]
      · intro p hp
        refine hwf.1 p ?_
        by_cases h1 : y < 0 <;> by_cases h2 : y > 0 <;>
          simpa [Controls.on_mouse_wheel, h1, h2] using hp
      · by_cases h1 : y < 0 <;> by_cases h2 : y > 0 <;>
          simp [Controls.on_mouse_wheel, h1, h2]
      · intro s
        by_cases h1 : y < 0 <;> by_cases h2 : y > 0 <;>
          simp [Controls.on_mouse_wheel, h1, h2, switchEventsFor_append,
            switchEventsFor_fireMap, switchEventsFor_valueMap]

theorem on_motion_spec [ValueTargetTrait V] (c : Controls F S V)
    (device_id : DeviceId) (axis : Nat) (value : Rat) (hwf : Wf c) :
    Wf (c.on_motion device_id axis value) ∧
      ∀ s : S, stepTri c (c.on_motion device_id axis value) s := by
  cases halo : alookup c.axis_mappings axis with
  | none =>
      have he : c.on_motion device_id axis value = c := by
        simp [Controls.on_motion, halo]
      rw [he]
      exact ⟨hwf, fun s => Or.inl (stepUp_refl_of_eq rfl rfl)⟩
  | some mapping =>
      have he : c.on_motion device_id axis value =
          { c with events := (motionFold c mapping (value, c.events)).2 } := by
        simp [Controls.on_motion, halo]
      rw [he]
      apply wf_stepRefl hwf
      · intro s
        rfl
      · exact fun p hp => hwf.1 p hp
      · rfl
      · intro s
        exact (motionFold_events c mapping (value, c.events)).2 s

end DeviceSpecs

section ComposeSpecs

variable {F S V : Type} [DecidableEq F] [DecidableEq S] [DecidableEq V]

theorem handle_spec_ok (c : Controls F S V) (trigger : HoldableTrigger)
    (device_id : DeviceId) (st : ElementState) (hwf : Wf c)
    (hok : releaseOk c trigger device_id st = true) :
    Wf (c.handle_holdable_trigger trigger device_id st) ∧
      ∀ s : S, stepTri c (c.handle_holdable_trigger trigger device_id st) s := by
  cases st with
  | Pressed =>
      obtain ⟨h1, h2⟩ := handle_pressed_spec c trigger device_id hwf
      exact ⟨h1, fun s => Or.inl (h2 s)⟩
  | Released =>
      have hdc : 0 < deviceCountOf (dataOf c trigger) device_id := by
        simpa [releaseOk] using hok
      obtain ⟨h1, h2⟩ := handle_released_spec c trigger device_id hwf hdc
      exact ⟨h1, fun s => Or.inr (h2 s)⟩

theorem on_button_spec (c : Controls F S V) (device_id : DeviceId)
    (button_id : Nat) (st : ElementState) (hwf : Wf c)
    (hok : devOk c device_id (DeviceEvent.Button button_id st) = true) :
    Wf (c.on_button device_id button_id st) ∧
      ∀ s : S, stepTri c (c.on_button device_id button_id st) s :=
  handle_spec_ok c (HoldableTrigger.Button button_id) device_id st hwf
    (by simpa [devOk] using hok)

theorem on_keyboard_input_spec (c : Controls F S V) (device_id : DeviceId)
    (input : KeyboardInput) (hwf : Wf c)
    (hok : devOk c device_id (DeviceEvent.Key input) = true) :
    Wf (c.on_keyboard_input device_id input) ∧
      ∀ s : S, stepTri c (c.on_keyboard_input device_id input) s := by
  simp only [devOk, Bool.and_eq_true] at hok
  obtain ⟨hok1, hok2⟩ := hok
  cases hvk : input.virtual_keycode with
  | none =>
      have he : c.on_keyboard_input device_id input =
          c.handle_holdable_trigger (HoldableTrigger.ScanCode input.scancode)
            device_id input.state := by
        simp [Controls.on_keyboard_input, hvk]
      rw [he]
      exact handle_spec_ok c _ device_id input.state hwf hok2
  | some kc =>
      rw [hvk] at hok1
      have he : c.on_keyboard_input device_id input =
          (c.handle_holdable_trigger (HoldableTrigger.KeyCode kc) device_id
            input.state).handle_holdable_trigger
            (HoldableTrigger.ScanCode input.scancode) device_id input.state := by
        simp [Controls.on_keyboard_input, hvk]
      rw [he]
      have hne : HoldableTrigger.ScanCode input.scancode ≠
          HoldableTrigger.KeyCode kc := by
        intro h
        cases h
      cases hst : input.state with
      | Pressed =>
          obtain ⟨hwf1, hstep1⟩ := handle_pressed_spec c
            (HoldableTrigger.KeyCode kc) device_id hwf
          obtain ⟨hwf2, hstep2⟩ := handle_pressed_spec
            (c.handle_holdable_trigger (HoldableTrigger.KeyCode kc) device_id
              ElementState.Pressed)
            (HoldableTrigger.ScanCode input.scancode) device_id hwf1
          exact ⟨hwf2, fun s => Or.inl (stepUp_trans (hstep1 s) (hstep2 s))⟩
      | Released =>
          rw [hst] at hok1 hok2
          have hdc1 : 0 < deviceCountOf (dataOf c (HoldableTrigger.KeyCode kc))
              device_id := by
            simpa [releaseOk] using hok1
          have hdc2 : 0 < deviceCountOf
              (dataOf c (HoldableTrigger.ScanCode input.scancode)) device_id := by
            simpa [releaseOk] using hok2
          obtain ⟨hwf1, hstep1⟩ := handle_released_spec c
            (HoldableTrigger.KeyCode kc) device_id hwf hdc1
          have hdc2' : 0 < deviceCountOf
              (dataOf (c.handle_holdable_trigger (HoldableTrigger.KeyCode kc)
                device_id ElementState.Released)
                (HoldableTrigger.ScanCode input.scancode)) device_id := by
            rw [handle_dataOf_ne c _ device_id _ _ hne]
            exact hdc2
          obtain ⟨hwf2, hstep2⟩ := handle_released_spec
            (c.handle_holdable_trigger (HoldableTrigger.KeyCode kc) device_id
              ElementState.Released)
            (HoldableTrigger.ScanCode input.scancode) device_id hwf1 hdc2'
          exact ⟨hwf2, fun s => Or.inr (stepDown_trans (hstep1 s) (hstep2 s))⟩

theorem process_spec [ValueTargetTrait V] (c : Controls F S V)
    (device_id : DeviceId) (e : DeviceEvent) (hwf : Wf c)
    (hok : devOk c device_id e = true) :
    Wf (c.process device_id e) ∧ ∀ s : S, stepTri c (c.process device_id e) s := by
  cases e with
  | MouseWheel delta => exact on_mouse_wheel_spec c device_id delta hwf
  | Motion axis value => exact on_motion_spec c device_id axis value hwf
  | MouseMotion delta => exact ⟨hwf, fun s => Or.inl (stepUp_refl_of_eq rfl rfl)⟩
  | Button button st => exact on_button_spec c device_id button st hwf hok
  | Key input => exact on_keyboard_input_spec c device_id input hwf hok
  | Removed => exact on_device_removed_spec c device_id hwf
  | Added => exact ⟨hwf, fun s => Or.inl (stepUp_refl_of_eq rfl rfl)⟩

theorem applyOp_spec [ValueTargetTrait V] (c : Controls F S V) (op : Op F S V)
    (hwf : Wf c) (hok : opOk c op = true) :
    Wf (applyOp c op) ∧ ∀ s : S, stepTri c (applyOp c op) s := by
  cases op with
  | bindAdd b =>
      cases b with
      | Fire trigger target => exact add_fire_bind_spec c trigger target hwf
      | Switch trigger target =>
          obtain ⟨h1, h2⟩ := add_switch_bind_spec c trigger target hwf
          exact ⟨h1, fun s => Or.inl (h2 s)⟩
      | Value trigger target => exact add_value_bind_spec c trigger target hwf
  | bindRemove b =>
      cases b with
      | Fire trigger target => exact remove_fire_bind_spec c trigger target hwf
      | Switch trigger target =>
          obtain ⟨h1, h2⟩ := remove_switch_bind_spec c trigger target hwf
          exact ⟨h1, fun s => Or.inr (h2 s)⟩
      | Value trigger target =>
          exact remove_value_bind_spec c trigger target hwf
  | factorSet target factor => exact set_factor_spec c target factor hwf
  | dev d e => exact process_spec c d e hwf hok

theorem run_wf [ValueTargetTrait V] (c : Controls F S V) (ops : List (Op F S V))
    (hwf : Wf c) (hok : runOk c ops = true) : Wf (run c ops) := by
  induction ops generalizing c with
  | nil => exact hwf
  | cons op ops ih =>
      simp only [runOk, Bool.and_eq_true] at hok
      exact ih _ (applyOp_spec c op hwf hok.1).1 hok.2

theorem run_append [ValueTargetTrait V] (c : Controls F S V)
    (l1 l2 : List (Op F S V)) : run c (l1 ++ l2) = run (run c l1) l2 := by
  induction l1 generalizing c with
  | nil => simp [run]
  | cons op l1 ih => simp [run, ih]

theorem runOk_append [ValueTargetTrait V] (c : Controls F S V)
    (l1 l2 : List (Op F S V)) :
    runOk c (l1 ++ l2) = (runOk c l1 && runOk (run c l1) l2) := by
  induction l1 generalizing c with
  | nil => simp [runOk, run]
  | cons op l1 ih =>
      simp [runOk, run, ih, Bool.and_assoc]

theorem new_wf : Wf (Controls.new (F := F) (S := S) (V := V)) := by
  constructor
  · intro p hp
    simp [Controls.new] at hp
  · intro s
    refine ⟨?_, ?_, ?_⟩
    · simp [activeCount, switchCountOf, Controls.new, alookup]
    · simp [switchEventsFor, Controls.new, altFrom]
    · simp [switchEventsFor, Controls.new, nextExp, switchCountOf, alookup]

end ComposeSpecs

section FrameHelpers

variable {F S V : Type} [DecidableEq F] [DecidableEq S] [DecidableEq V]

theorem alookup_map_entry {K W : Type} [DecidableEq K] (l : List (K × W))
    (g : K × W → K × W) (hg : ∀ p, (g p).1 = p.1) (k : K) :
    alookup (l.map g) k = (alookup l k).map (fun v => (g (k, v)).2) := by
  induction l with
  | nil => simp [alookup]
  | cons p rest ih =>
      obtain ⟨k', v⟩ := p
      by_cases h : k' = k
      · subst h
        have h1 : (g (k', v)).1 = k' := hg (k', v)
        have h2 : g (k', v) = ((g (k', v)).1, (g (k', v)).2) := rfl
        simp [alookup, h1, h2.symm]
      · have h1 : (g (k', v)).1 = k' := hg (k', v)
        have h2 : g (k', v) = ((g (k', v)).1, (g (k', v)).2) := rfl
        rw [List.map_cons]
        rw [h2]
        simp [alookup, h1, h, ih]

theorem removeDeviceEntry_fst (device_id : DeviceId)
    (p : HoldableTrigger × HoldableTriggerData F S) :
    (removeDeviceEntry device_id p).1 = p.1 := by
  unfold removeDeviceEntry
  cases alookup p.2.device_counters device_id <;> rfl

theorem removeDeviceEntry_on_press (device_id : DeviceId)
    (p : HoldableTrigger × HoldableTriggerData F S) :
    (removeDeviceEntry device_id p).2.on_press = p.2.on_press := by
  unfold removeDeviceEntry
  cases alookup p.2.device_counters device_id <;> rfl

theorem on_device_removed_dataOf_sets (c : Controls F S V)
    (device_id : DeviceId) (t : HoldableTrigger) :
    (dataOf (c.on_device_removed device_id) t).on_press = (dataOf c t).on_press ∧
    (dataOf (c.on_device_removed device_id) t).while_down =
      (dataOf c t).while_down := by
  have h := alookup_map_entry c.holdable_trigger_data
    (removeDeviceEntry device_id) (removeDeviceEntry_fst device_id) t
  have h2 : dataOf (c.on_device_removed device_id) t =
      ((alookup c.holdable_trigger_data t).map
        (fun v => (removeDeviceEntry device_id (t, v)).2)).getD
        HoldableTriggerData.new := by
    unfold dataOf
    show (alookup (c.holdable_trigger_data.map (removeDeviceEntry device_id)) t).getD
      HoldableTriggerData.new = _
    rw [h]
  rw [h2]
  unfold dataOf
  cases alookup c.holdable_trigger_data t with
  | none => exact ⟨rfl, rfl⟩
  | some v =>
      simp only [Option.map_some, Option.getD_some]
      exact ⟨removeDeviceEntry_on_press device_id (t, v),
        removeDeviceEntry_wd device_id (t, v)⟩

end FrameHelpers

section IdemHelpers

variable {F S V : Type} [DecidableEq F] [DecidableEq S] [DecidableEq V]

theorem hsInsert_idem {A : Type} [DecidableEq A] (l : List A) (a : A) :
    (hsInsert (hsInsert l a).1 a).1 = (hsInsert l a).1 := by
  have hmem : a ∈ (hsInsert l a).1 := (hsInsert_mem l a a).mpr (Or.inr rfl)
  show (if a ∈ (hsInsert l a).1 then ((hsInsert l a).1, false)
    else ((hsInsert l a).1 ++ [a], true)).1 = (hsInsert l a).1
  rw [if_pos hmem]

theorem hsRemove_absent {A : Type} [DecidableEq A] (l : List A) (a : A)
    (h : a ∉ l) : (hsRemove l a).1 = l := by
  simp [hsRemove, h]

theorem add_switch_bind_of_mem (c : Controls F S V) (trigger : HoldableTrigger)
    (target : S) (hmem : target ∈ (dataOf c trigger).while_down) :
    c.add_switch_bind trigger target =
      { c with holdable_trigger_data := aupdate c.holdable_trigger_data trigger (fun _ => dataOf c trigger) HoldableTriggerData.new } := by
  rw [add_switch_bind_silent c trigger target (Or.inl hmem)]
  have : (hsInsert (dataOf c trigger).while_down target).1 =
      (dataOf c trigger).while_down := by
    simp [hsInsert, hmem]
  rw [this]

end IdemHelpers

/-
The claims.
-/

/-- C10: processing any raw device event never adds or removes a
(trigger, target) binding and never changes a value factor: the on-press and
while-down sets of every holdable trigger, the axis mappings, the mouse-wheel
mapping, and the value-factor map are unchanged by `process`, which only
updates counters and appends to the event queue. -/
theorem claim_c10_process_frame {F S V : Type} [DecidableEq F] [DecidableEq S]
    [DecidableEq V] [ValueTargetTrait V] (c : Controls F S V) (d : DeviceId)
    (e : DeviceEvent) :
    (∀ t : HoldableTrigger,
      (dataOf (c.process d e) t).on_press = (dataOf c t).on_press ∧
      (dataOf (c.process d e) t).while_down = (dataOf c t).while_down) ∧
    (c.process d e).axis_mappings = c.axis_mappings ∧
    (c.process d e).mouse_wheel_mapping = c.mouse_wheel_mapping ∧
    (c.process d e).value_factors = c.value_factors ∧
    ∃ tail, (c.process d e).events = c.events ++ tail := by
  cases e with
  | Button button st =>
      exact ⟨fun t => handle_dataOf_sets c (HoldableTrigger.Button button) d st t,
        handle_frame c (HoldableTrigger.Button button) d st⟩
  | Key input =>
      cases hvk : input.virtual_keycode with
      | none =>
          have he : c.process d (DeviceEvent.Key input) =
              c.handle_holdable_trigger (HoldableTrigger.ScanCode input.scancode)
                d input.state := by
            simp [Controls.process, Controls.on_keyboard_input, hvk]
          rw [he]
          exact ⟨fun t => handle_dataOf_sets c _ d input.state t,
            handle_frame c _ d input.state⟩
      | some kc =>
          have he : c.process d (DeviceEvent.Key input) =
              (c.handle_holdable_trigger (HoldableTrigger.KeyCode kc) d
                input.state).handle_holdable_trigger
                (HoldableTrigger.ScanCode input.scancode) d input.state := by
            simp [Controls.process, Controls.on_keyboard_input, hvk]
          rw [he]
          constructor
          · intro t
            have h1 := handle_dataOf_sets c (HoldableTrigger.KeyCode kc) d
              input.state t
            have h2 := handle_dataOf_sets
              (c.handle_holdable_trigger (HoldableTrigger.KeyCode kc) d input.state)
              (HoldableTrigger.ScanCode input.scancode) d input.state t
            exact ⟨h2.1.trans h1.1, h2.2.trans h1.2⟩
          · have f1 := handle_frame c (HoldableTrigger.KeyCode kc) d input.state
            have f2 := handle_frame
              (c.handle_holdable_trigger (HoldableTrigger.KeyCode kc) d input.state)
              (HoldableTrigger.ScanCode input.scancode) d input.state
            refine ⟨f2.1.trans f1.1, f2.2.1.trans f1.2.1,
              f2.2.2.1.trans f1.2.2.1, ?_⟩
            obtain ⟨t1, ht1⟩ := f1.2.2.2
            obtain ⟨t2, ht2⟩ := f2.2.2.2
            exact ⟨t1 ++ t2, by rw [ht2, ht1, List.append_assoc]⟩
  | MouseWheel delta =>
      cases delta with
      | PixelDelta =>
          exact ⟨fun t => ⟨rfl, rfl⟩, rfl, rfl, rfl, [],
            (List.append_nil c.events).symm⟩
      | LineDelta x y =>
          refine ⟨fun t => ⟨rfl, rfl⟩, rfl, rfl, rfl, ?_⟩
          by_cases h1 : y < 0
          · refine ⟨c.mouse_wheel_mapping.on_up.map ControlEvent.Fire ++
              c.mouse_wheel_mapping.on_change.map
                (fun t => ControlEvent.Value t y), ?_⟩
            simp [Controls.process, Controls.on_mouse_wheel, h1]
          · by_cases h2 : y > 0
            · refine ⟨c.mouse_wheel_mapping.on_down.map ControlEvent.Fire ++
                c.mouse_wheel_mapping.on_change.map
                  (fun t => ControlEvent.Value t y), ?_⟩
              simp [Controls.process, Controls.on_mouse_wheel, h1, h2]
            · refine ⟨c.mouse_wheel_mapping.on_change.map
                (fun t => ControlEvent.Value t y), ?_⟩
              simp [Controls.process, Controls.on_mouse_wheel, h1, h2]
  | Motion axis value =>
      cases halo : alookup c.axis_mappings axis with
      | none =>
          have he : c.process d (DeviceEvent.Motion axis value) = c := by
            simp [Controls.process, Controls.on_motion, halo]
          rw [he]
          exact ⟨fun t => ⟨rfl, rfl⟩, rfl, rfl, rfl, [],
            (List.append_nil c.events).symm⟩
      | some mapping =>
          have he : c.process d (DeviceEvent.Motion axis value) =
              { c with events := (motionFold c mapping (value, c.events)).2 } := by
            simp [Controls.process, Controls.on_motion, halo]
          rw [he]
          refine ⟨fun t => ⟨rfl, rfl⟩, rfl, rfl, rfl, ?_⟩
          obtain ⟨tail, ht⟩ := (motionFold_events c mapping (value, c.events)).1
          exact ⟨tail, ht⟩
  | MouseMotion delta =>
      exact ⟨fun t => ⟨rfl, rfl⟩, rfl, rfl, rfl, [],
        (List.append_nil c.events).symm⟩
  | Removed =>
      exact ⟨fun t => on_device_removed_dataOf_sets c d t, rfl, rfl, rfl, [],
        (List.append_nil c.events).symm⟩
  | Added =>
      exact ⟨fun t => ⟨rfl, rfl⟩, rfl, rfl, rfl, [],
        (List.append_nil c.events).symm⟩

/-- whether a binding is currently present in the binding store; MouseX/MouseY
value bindings are never stored (the source arms are TODO). -/
def boundB {F S V : Type} [DecidableEq F] [DecidableEq S] [DecidableEq V]
    (c : Controls F S V) : ControlBind F S V → Bool
  | ControlBind.Fire (FireTrigger.Holdable ht) t =>
      decide (t ∈ (dataOf c ht).on_press)
  | ControlBind.Fire (FireTrigger.MouseWheelTick MouseWheelDirection.Up) t =>
      decide (t ∈ c.mouse_wheel_mapping.on_up)
  | ControlBind.Fire (FireTrigger.MouseWheelTick MouseWheelDirection.Down) t =>
      decide (t ∈ c.mouse_wheel_mapping.on_down)
  | ControlBind.Switch ht t => decide (t ∈ (dataOf c ht).while_down)
  | ControlBind.Value ValueTrigger.MouseX _ => false
  | ControlBind.Value ValueTrigger.MouseY _ => false
  | ControlBind.Value ValueTrigger.MouseWheel t =>
      decide (t ∈ c.mouse_wheel_mapping.on_change)
  | ControlBind.Value (ValueTrigger.Axis a) t =>
      decide (t ∈ (alookup c.axis_mappings a).getD [])

section ClaimNine

variable {F S V : Type} [DecidableEq F] [DecidableEq S] [DecidableEq V]

theorem add_switch_bind_htd (c : Controls F S V) (trigger : HoldableTrigger)
    (target : S) :
    (c.add_switch_bind trigger target).holdable_trigger_data =
      aupdate c.holdable_trigger_data trigger (fun _ => { dataOf c trigger with while_down := (hsInsert (dataOf c trigger).while_down target).1 }) HoldableTriggerData.new := by
  simp only [Controls.add_switch_bind, dataOf]
  split <;> rfl

theorem on_press_upd_idem (target : F) (w : HoldableTriggerData F S) :
    ({ w with on_press := (hsInsert ((hsInsert w.on_press target).1) target).1 } : HoldableTriggerData F S) = { w with on_press := (hsInsert w.on_press target).1 } := by
  rw [hsInsert_idem]

theorem add_fire_bind_idem (c : Controls F S V) (trigger : FireTrigger)
    (target : F) :
    (c.add_fire_bind trigger target).add_fire_bind trigger target =
      c.add_fire_bind trigger target := by
  cases trigger with
  | Holdable ht =>
      show { c with holdable_trigger_data := aupdate (aupdate c.holdable_trigger_data ht (fun d => { d with on_press := (hsInsert d.on_press target).1 }) HoldableTriggerData.new) ht (fun d => { d with on_press := (hsInsert d.on_press target).1 }) HoldableTriggerData.new } = { c with holdable_trigger_data := aupdate c.holdable_trigger_data ht (fun d => { d with on_press := (hsInsert d.on_press target).1 }) HoldableTriggerData.new }
      rw [aupdate_aupdate]
      have hcg := aupdate_congr c.holdable_trigger_data ht
        (fun w => { { w with on_press := (hsInsert w.on_press target).1 } with on_press := (hsInsert ((hsInsert w.on_press target).1) target).1 })
        (fun d => { d with on_press := (hsInsert d.on_press target).1 })
        HoldableTriggerData.new (by exact on_press_upd_idem target _)
      rw [hcg]
  | MouseWheelTick dir =>
      cases dir with
      | Up =>
          show { c with mouse_wheel_mapping := { c.mouse_wheel_mapping with on_up := (hsInsert ((hsInsert c.mouse_wheel_mapping.on_up target).1) target).1 } } = { c with mouse_wheel_mapping := { c.mouse_wheel_mapping with on_up := (hsInsert c.mouse_wheel_mapping.on_up target).1 } }
          rw [hsInsert_idem]
      | Down =>
          show { c with mouse_wheel_mapping := { c.mouse_wheel_mapping with on_down := (hsInsert ((hsInsert c.mouse_wheel_mapping.on_down target).1) target).1 } } = { c with mouse_wheel_mapping := { c.mouse_wheel_mapping with on_down := (hsInsert c.mouse_wheel_mapping.on_down target).1 } }
          rw [hsInsert_idem]

theorem add_switch_bind_idem (c : Controls F S V) (trigger : HoldableTrigger)
    (target : S) :
    (c.add_switch_bind trigger target).add_switch_bind trigger target =
      c.add_switch_bind trigger target := by
  have hhtd := add_switch_bind_htd c trigger target
  have halo : alookup (c.add_switch_bind trigger target).holdable_trigger_data
      trigger = some { dataOf c trigger with while_down := (hsInsert (dataOf c trigger).while_down target).1 } := by
    rw [hhtd, alookup_aupdate_self]
  have hd1 : dataOf (c.add_switch_bind trigger target) trigger =
      { dataOf c trigger with while_down := (hsInsert (dataOf c trigger).while_down target).1 } := by
    unfold dataOf
    rw [halo]
    rfl
  have hmem1 : target ∈
      (dataOf (c.add_switch_bind trigger target) trigger).while_down := by
    rw [hd1]
    exact (hsInsert_mem _ _ _).mpr (Or.inr rfl)
  rw [add_switch_bind_of_mem _ trigger target hmem1]
  rw [hd1]
  have hid : aupdate (c.add_switch_bind trigger target).holdable_trigger_data
      trigger (fun _ => { dataOf c trigger with while_down := (hsInsert (dataOf c trigger).while_down target).1 }) HoldableTriggerData.new = (c.add_switch_bind trigger target).holdable_trigger_data :=
    aupdate_id halo _ rfl _
  rw [hid]

theorem add_value_bind_idem (c : Controls F S V) (trigger : ValueTrigger)
    (target : V) :
    (c.add_value_bind trigger target).add_value_bind trigger target =
      c.add_value_bind trigger target := by
  cases trigger with
  | MouseX => rfl
  | MouseY => rfl
  | MouseWheel =>
      show { c with mouse_wheel_mapping := { c.mouse_wheel_mapping with on_change := (hsInsert ((hsInsert c.mouse_wheel_mapping.on_change target).1) target).1 } } = { c with mouse_wheel_mapping := { c.mouse_wheel_mapping with on_change := (hsInsert c.mouse_wheel_mapping.on_change target).1 } }
      rw [hsInsert_idem]
  | Axis axis =>
      show { c with axis_mappings := aupdate (aupdate c.axis_mappings axis (fun l => (hsInsert l target).1) []) axis (fun l => (hsInsert l target).1) [] } = { c with axis_mappings := aupdate c.axis_mappings axis (fun l => (hsInsert l target).1) [] }
      rw [aupdate_aupdate]
      have hcg := aupdate_congr c.axis_mappings axis
        (fun l => (hsInsert ((hsInsert l target).1) target).1)
        (fun l => (hsInsert l target).1) [] (by exact hsInsert_idem _ target)
      rw [hcg]

theorem remove_fire_bind_unbound (c : Controls F S V) (trigger : FireTrigger)
    (target : F)
    (h : boundB c (ControlBind.Fire trigger target) = false) :
    c.remove_fire_bind trigger target = c := by
  cases trigger with
  | Holdable ht =>
      have hnot : target ∉ (dataOf c ht).on_press := by
        simpa [boundB] using h
      cases halo : alookup c.holdable_trigger_data ht with
      | none =>
          show { c with holdable_trigger_data := aadjust c.holdable_trigger_data ht (fun d => { d with on_press := (hsRemove d.on_press target).1 }) } = c
          rw [aadjust_none halo]
      | some w =>
          have hw : dataOf c ht = w := by
            unfold dataOf
            rw [halo]
            rfl
          rw [hw] at hnot
          show { c with holdable_trigger_data := aadjust c.holdable_trigger_data ht (fun d => { d with on_press := (hsRemove d.on_press target).1 }) } = c
          rw [aadjust_eq_aupdate halo _ HoldableTriggerData.new]
          rw [aupdate_id halo _ (by rw [hsRemove_absent _ _ hnot]) _]
  | MouseWheelTick dir =>
      cases dir with
      | Up =>
          have hnot : target ∉ c.mouse_wheel_mapping.on_up := by
            simpa [boundB] using h
          show { c with mouse_wheel_mapping := { c.mouse_wheel_mapping with on_up := (hsRemove c.mouse_wheel_mapping.on_up target).1 } } = c
          rw [hsRemove_absent _ _ hnot]
      | Down =>
          have hnot : target ∉ c.mouse_wheel_mapping.on_down := by
            simpa [boundB] using h
          show { c with mouse_wheel_mapping := { c.mouse_wheel_mapping with on_down := (hsRemove c.mouse_wheel_mapping.on_down target).1 } } = c
          rw [hsRemove_absent _ _ hnot]

theorem remove_switch_bind_unbound (c : Controls F S V)
    (trigger : HoldableTrigger) (target : S)
    (h : boundB c (ControlBind.Switch trigger target) = false) :
    c.remove_switch_bind trigger target = c := by
  have hnot : target ∉ (dataOf c trigger).while_down := by
    simpa [boundB] using h
  cases halo : alookup c.holdable_trigger_data trigger with
  | none => exact remove_switch_bind_absent c trigger target halo
  | some w =>
      have hw : dataOf c trigger = w := by
        unfold dataOf
        rw [halo]
        rfl
      rw [hw] at hnot
      rw [remove_switch_bind_silent c trigger target halo (Or.inl hnot)]
      rw [aadjust_eq_aupdate halo _ HoldableTriggerData.new]
      have hfix : (fun (_ : HoldableTriggerData F S) => { w with while_down := (hsRemove w.while_down target).1 }) w = w := by
        rw [hsRemove_absent _ _ hnot]
      rw [aupdate_id halo _ hfix _]

theorem remove_value_bind_unbound (c : Controls F S V)
    (trigger : ValueTrigger) (target : V)
    (h : boundB c (ControlBind.Value trigger target) = false) :
    c.remove_value_bind trigger target = c := by
  cases trigger with
  | MouseX => rfl
  | MouseY => rfl
  | MouseWheel =>
      have hnot : target ∉ c.mouse_wheel_mapping.on_change := by
        simpa [boundB] using h
      show { c with mouse_wheel_mapping := { c.mouse_wheel_mapping with on_change := (hsRemove c.mouse_wheel_mapping.on_change target).1 } } = c
      rw [hsRemove_absent _ _ hnot]
  | Axis axis =>
      have hnot : target ∉ (alookup c.axis_mappings axis).getD [] := by
        simpa [boundB] using h
      cases halo : alookup c.axis_mappings axis with
      | none =>
          show { c with axis_mappings := aadjust c.axis_mappings axis (fun l => (hsRemove l target).1) } = c
          rw [aadjust_none halo]
      | some lst =>
          rw [halo] at hnot
          simp only [Option.getD_some] at hnot
          show { c with axis_mappings := aadjust c.axis_mappings axis (fun l => (hsRemove l target).1) } = c
          rw [aadjust_eq_aupdate halo _ []]
          rw [aupdate_id halo _ (hsRemove_absent _ _ hnot) _]

end ClaimNine

/-- C9: re-adding an existing binding is a no-op — `add_bind b; add_bind b`
leaves the aggregate (binding tables, switch counters, event queue) exactly as
a single `add_bind b` — and removing a binding that is not currently bound
changes nothing and emits no event. -/
theorem claim_c9_bind_idempotence {F S V : Type} [DecidableEq F]
    [DecidableEq S] [DecidableEq V] (c : Controls F S V)
    (b : ControlBind F S V) :
    (c.add_bind b).add_bind b = c.add_bind b ∧
    (boundB c b = false → c.remove_bind b = c) := by
  constructor
  · cases b with
    | Fire trigger target => exact add_fire_bind_idem c trigger target
    | Switch trigger target => exact add_switch_bind_idem c trigger target
    | Value trigger target => exact add_value_bind_idem c trigger target
  · intro h
    cases b with
    | Fire trigger target => exact remove_fire_bind_unbound c trigger target h
    | Switch trigger target => exact remove_switch_bind_unbound c trigger target h
    | Value trigger target => exact remove_value_bind_unbound c trigger target h

/-- C9 witness: with `Button 1` bound to switch target 0 but nothing else,
removing the absent fire binding `(MouseWheelUp, 2)` changes nothing, and
adding the switch binding twice equals adding it once. -/
theorem claim_c9_witness :
    ((run (Controls.new (F := Nat) (S := Nat) (V := Nat))
        [Op.bindAdd (ControlBind.Switch (HoldableTrigger.Button 1) 0)]).remove_bind
      (ControlBind.Fire (FireTrigger.MouseWheelTick MouseWheelDirection.Up) 2) =
      run Controls.new [Op.bindAdd (ControlBind.Switch (HoldableTrigger.Button 1) 0)]) ∧
    (((Controls.new (F := Nat) (S := Nat) (V := Nat)).add_bind
        (ControlBind.Switch (HoldableTrigger.Button 1) 0)).add_bind
      (ControlBind.Switch (HoldableTrigger.Button 1) 0) =
      (Controls.new (F := Nat) (S := Nat) (V := Nat)).add_bind
        (ControlBind.Switch (HoldableTrigger.Button 1) 0)) :=
  ⟨(claim_c9_bind_idempotence _ _).2 (by decide),
   (claim_c9_bind_idempotence _ _).1⟩

/-- C3: live rebinding.  Adding a Switch binding `(h, t)` that is new while
`h` is held increments the switch counter of `t` and emits `Switch(Active)`
exactly when that counter was 0; removing an existing Switch binding while `h`
is held decrements the counter and emits `Switch(Inactive)` exactly when the
counter reaches 0; in every other case these operations change no switch
counter and emit nothing.  The removal part carries the reachable-state bound
`activeCount ≤ switch counter` (invariant I2 gives equality), which is what
the source's `debug_assert!` in `decrease_switch_target_counter` relies on. -/
theorem claim_c3_live_rebind_counter {F S V : Type} [DecidableEq F]
    [DecidableEq S] [DecidableEq V] (c : Controls F S V)
    (h : HoldableTrigger) (t : S) :
    (t ∉ (dataOf c h).while_down → 0 < (dataOf c h).overall_counter →
      switchCountOf (c.add_bind (ControlBind.Switch h t)) t =
        switchCountOf c t + 1 ∧
      (switchCountOf c t = 0 →
        (c.add_bind (ControlBind.Switch h t)).events =
          c.events ++ [ControlEvent.Switch t SwitchState.Active]) ∧
      (0 < switchCountOf c t →
        (c.add_bind (ControlBind.Switch h t)).events = c.events)) ∧
    (t ∈ (dataOf c h).while_down → 0 < (dataOf c h).overall_counter →
      activeCount c t ≤ switchCountOf c t →
      switchCountOf (c.remove_bind (ControlBind.Switch h t)) t =
        switchCountOf c t - 1 ∧
      (switchCountOf c t = 1 →
        (c.remove_bind (ControlBind.Switch h t)).events =
          c.events ++ [ControlEvent.Switch t SwitchState.Inactive]) ∧
      (1 < switchCountOf c t →
        (c.remove_bind (ControlBind.Switch h t)).events = c.events)) ∧
    ((t ∈ (dataOf c h).while_down ∨ (dataOf c h).overall_counter = 0) →
      (c.add_bind (ControlBind.Switch h t)).switch_counter = c.switch_counter ∧
      (c.add_bind (ControlBind.Switch h t)).events = c.events) ∧
    ((t ∉ (dataOf c h).while_down ∨ (dataOf c h).overall_counter = 0) →
      (c.remove_bind (ControlBind.Switch h t)).switch_counter =
        c.switch_counter ∧
      (c.remove_bind (ControlBind.Switch h t)).events = c.events) := by
  refine ⟨?_, ?_, ?_, ?_⟩
  · intro hmem hoc
    show switchCountOf (c.add_switch_bind h t) t = _ ∧
      (_ → (c.add_switch_bind h t).events = _) ∧
      (_ → (c.add_switch_bind h t).events = _)
    rw [add_switch_bind_emit c h t hmem hoc]
    refine ⟨?_, ?_, ?_⟩
    · show (alookup (increase_switch_target_counter t c.switch_counter c.events).1 t).getD 0 =
        (alookup c.switch_counter t).getD 0 + 1
      rw [increase_count_self]
    · intro h0
      show (increase_switch_target_counter t c.switch_counter c.events).2 = _
      rw [increase_events,
        if_pos (show (alookup c.switch_counter t).getD 0 = 0 from h0)]
    · intro h0
      show (increase_switch_target_counter t c.switch_counter c.events).2 = _
      rw [increase_events,
        if_neg (show ¬(alookup c.switch_counter t).getD 0 = 0 by
          simp only [switchCountOf] at h0; omega)]
      simp
  · intro hmem hoc hdom
    cases halo : alookup c.holdable_trigger_data h with
    | none =>
        exfalso
        unfold dataOf at hmem
        rw [halo] at hmem
        simp [HoldableTriggerData.new] at hmem
    | some data =>
        have hd0 : dataOf c h = data := by
          unfold dataOf
          rw [halo]
          rfl
        rw [hd0] at hmem hoc
        have hpos : 0 < switchCountOf c t := by
          have hap : 0 < activeCount c t := by
            apply activeCount_pos (t := h) <;> rw [hd0]
            · exact hmem
            · exact hoc
          omega
        show switchCountOf (c.remove_switch_bind h t) t = _ ∧
          (_ → (c.remove_switch_bind h t).events = _) ∧
          (_ → (c.remove_switch_bind h t).events = _)
        rw [remove_switch_bind_emit c h t halo hmem hoc]
        refine ⟨?_, ?_, ?_⟩
        · show (alookup (decrease_switch_target_counter t c.switch_counter c.events).1 t).getD 0 =
            (alookup c.switch_counter t).getD 0 - 1
          rw [decrease_count_self]
        · intro h1
          show (decrease_switch_target_counter t c.switch_counter c.events).2 = _
          rw [decrease_events,
            if_pos (show (alookup c.switch_counter t).getD 0 - 1 = 0 by
              simp only [switchCountOf] at h1; omega)]
        · intro h1
          show (decrease_switch_target_counter t c.switch_counter c.events).2 = _
          rw [decrease_events,
            if_neg (show ¬(alookup c.switch_counter t).getD 0 - 1 = 0 by
              simp only [switchCountOf] at h1; omega)]
          simp
  · intro hsil
    show (c.add_switch_bind h t).switch_counter = _ ∧
      (c.add_switch_bind h t).events = _
    rw [add_switch_bind_silent c h t hsil]
    exact ⟨rfl, rfl⟩
  · intro hsil
    cases halo : alookup c.holdable_trigger_data h with
    | none =>
        rw [show c.remove_bind (ControlBind.Switch h t) = c from
          remove_switch_bind_absent c h t halo]
        exact ⟨rfl, rfl⟩
    | some data =>
        have hd0 : dataOf c h = data := by
          unfold dataOf
          rw [halo]
          rfl
        rw [hd0] at hsil
        show (c.remove_switch_bind h t).switch_counter = _ ∧
          (c.remove_switch_bind h t).events = _
        rw [remove_switch_bind_silent c h t halo hsil]
        exact ⟨rfl, rfl⟩

/-- C3 witness: with `Button 1` held on one device and bound to switch
target 0, adding the new binding to target 1 bumps its counter from 0 and
emits `Switch(Active)`, and removing the live binding to target 0 drops its
counter to 0 and emits `Switch(Inactive)`. -/
theorem claim_c3_witness :
    (switchCountOf ((run (Controls.new (F := Nat) (S := Nat) (V := Nat))
        [Op.bindAdd (ControlBind.Switch (HoldableTrigger.Button 1) 0),
         Op.dev 5 (DeviceEvent.Button 1 ElementState.Pressed)]).add_bind
        (ControlBind.Switch (HoldableTrigger.Button 1) 1)) 1 = 1) ∧
    ((run (Controls.new (F := Nat) (S := Nat) (V := Nat))
        [Op.bindAdd (ControlBind.Switch (HoldableTrigger.Button 1) 0),
         Op.dev 5 (DeviceEvent.Button 1 ElementState.Pressed)]).remove_bind
        (ControlBind.Switch (HoldableTrigger.Button 1) 0)).events =
      (run (Controls.new (F := Nat) (S := Nat) (V := Nat))
        [Op.bindAdd (ControlBind.Switch (HoldableTrigger.Button 1) 0),
         Op.dev 5 (DeviceEvent.Button 1 ElementState.Pressed)]).events ++
        [ControlEvent.Switch 0 SwitchState.Inactive] := by
  have h1 := claim_c3_live_rebind_counter
    (run (Controls.new (F := Nat) (S := Nat) (V := Nat))
      [Op.bindAdd (ControlBind.Switch (HoldableTrigger.Button 1) 0),
       Op.dev 5 (DeviceEvent.Button 1 ElementState.Pressed)])
    (HoldableTrigger.Button 1) 1
  have h2 := claim_c3_live_rebind_counter
    (run (Controls.new (F := Nat) (S := Nat) (V := Nat))
      [Op.bindAdd (ControlBind.Switch (HoldableTrigger.Button 1) 0),
       Op.dev 5 (DeviceEvent.Button 1 ElementState.Pressed)])
    (HoldableTrigger.Button 1) 0
  constructor
  · have := (h1.1 (by decide) (by decide)).1
    rw [this]
    decide
  · exact (h2.2.1 (by decide) (by decide) (by decide)).2.1 (by decide)

/-- C6: invariant I1.  Along any run of well-formed operations (each release
matched by an earlier press of the same trigger on the same device, which is
what `runOk` checks, mirroring the source `debug_assert!`s) interleaved with
bind changes and device-removed events, after every prefix and for every
holdable trigger the overall counter equals the sum of the per-device
counters (all counters live in Nat, so non-negativity is by construction,
and `runOk` guarantees the source's guarded subtractions never truncate). -/
theorem claim_c6_overall_counter_sum {F S V : Type} [DecidableEq F]
    [DecidableEq S] [DecidableEq V] [ValueTargetTrait V]
    (ops : List (Op F S V))
    (hok : runOk (Controls.new (F := F) (S := S) (V := V)) ops = true)
    (pre : List (Op F S V)) (hpre : pre <+: ops) (t : HoldableTrigger) :
    (dataOf (run Controls.new pre) t).overall_counter =
      sumDC (dataOf (run Controls.new pre) t) ∧
    (dataOf (run Controls.new pre) t).while_down.Nodup := by
  obtain ⟨suf, hsuf⟩ := hpre
  rw [← hsuf, runOk_append, Bool.and_eq_true] at hok
  have hwf : Wf (run (Controls.new (F := F) (S := S) (V := V)) pre) :=
    run_wf _ pre new_wf hok.1
  obtain ⟨h1, h2⟩ := dataOf_wf hwf.1 t
  exact ⟨h2, h1⟩

/-- C6 witness: after binding `Button 1` to switch target 0, pressing it on
devices 5 and 6 and releasing on 5, the invariant holds for the trigger. -/
theorem claim_c6_witness :
    (runOk (Controls.new (F := Nat) (S := Nat) (V := Nat))
      [Op.bindAdd (ControlBind.Switch (HoldableTrigger.Button 1) 0),
       Op.dev 5 (DeviceEvent.Button 1 ElementState.Pressed),
       Op.dev 6 (DeviceEvent.Button 1 ElementState.Pressed),
       Op.dev 5 (DeviceEvent.Button 1 ElementState.Released)] = true) ∧
    (dataOf (run (Controls.new (F := Nat) (S := Nat) (V := Nat))
      [Op.bindAdd (ControlBind.Switch (HoldableTrigger.Button 1) 0),
       Op.dev 5 (DeviceEvent.Button 1 ElementState.Pressed),
       Op.dev 6 (DeviceEvent.Button 1 ElementState.Pressed),
       Op.dev 5 (DeviceEvent.Button 1 ElementState.Released)])
      (HoldableTrigger.Button 1)).overall_counter =
      sumDC (dataOf (run (Controls.new (F := Nat) (S := Nat) (V := Nat))
        [Op.bindAdd (ControlBind.Switch (HoldableTrigger.Button 1) 0),
         Op.dev 5 (DeviceEvent.Button 1 ElementState.Pressed),
         Op.dev 6 (DeviceEvent.Button 1 ElementState.Pressed),
         Op.dev 5 (DeviceEvent.Button 1 ElementState.Released)])
        (HoldableTrigger.Button 1)) := by
  refine ⟨by decide, ?_⟩
  exact (claim_c6_overall_counter_sum
    [Op.bindAdd (ControlBind.Switch (HoldableTrigger.Button 1) 0),
     Op.dev 5 (DeviceEvent.Button 1 ElementState.Pressed),
     Op.dev 6 (DeviceEvent.Button 1 ElementState.Pressed),
     Op.dev 5 (DeviceEvent.Button 1 ElementState.Released)] (by decide)
    _ (List.prefix_refl _) (HoldableTrigger.Button 1)).1

/-- C5: switch edge emission and alternation.  Along any well-formed run,
for every switch target: (a) the Switch stream emitted for that target
strictly alternates Active, Inactive, ... starting with Active; (b) a step
appends Switch(Active) exactly when the target's counter crosses from zero
to positive, appends Switch(Inactive) exactly when it crosses from positive
to zero, and appends nothing when the counter stays on one side of zero
(each operation moves a given counter by at most one, so these crossings
are precisely the 0 to 1 and 1 to 0 transitions of the spec). -/
theorem claim_c5_switch_alternation {F S V : Type} [DecidableEq F]
    [DecidableEq S] [DecidableEq V] [ValueTargetTrait V]
    (ops : List (Op F S V))
    (hok : runOk (Controls.new (F := F) (S := S) (V := V)) ops = true)
    (s : S) :
    altFrom SwitchState.Active
      (switchEventsFor s (run Controls.new ops).events) = true ∧
    ∀ pre op, pre ++ [op] <+: ops →
      ((switchEventsFor s (run Controls.new (pre ++ [op])).events =
          switchEventsFor s (run Controls.new pre).events ++
            [SwitchState.Active]) ↔
        (switchCountOf (run Controls.new pre) s = 0 ∧
          0 < switchCountOf (run Controls.new (pre ++ [op])) s)) ∧
      ((switchEventsFor s (run Controls.new (pre ++ [op])).events =
          switchEventsFor s (run Controls.new pre).events ++
            [SwitchState.Inactive]) ↔
        (0 < switchCountOf (run Controls.new pre) s ∧
          switchCountOf (run Controls.new (pre ++ [op])) s = 0)) ∧
      ((switchCountOf (run Controls.new pre) s = 0 ↔
          switchCountOf (run Controls.new (pre ++ [op])) s = 0) →
        switchEventsFor s (run Controls.new (pre ++ [op])).events =
          switchEventsFor s (run Controls.new pre).events) := by
  constructor
  · exact ((run_wf _ ops new_wf hok).2 s).2.1
  · intro pre op hpre
    obtain ⟨suf, hsuf⟩ := hpre
    have hok2 : runOk (Controls.new (F := F) (S := S) (V := V))
        (pre ++ [op]) = true := by
      rw [← hsuf, runOk_append, Bool.and_eq_true] at hok
      exact hok.1
    rw [runOk_append, Bool.and_eq_true] at hok2
    have hwfpre : Wf (run (Controls.new (F := F) (S := S) (V := V)) pre) :=
      run_wf _ pre new_wf hok2.1
    have hok1 : opOk (run (Controls.new (F := F) (S := S) (V := V)) pre)
        op = true := by
      have h0 := hok2.2
      simp only [runOk, Bool.and_eq_true] at h0
      exact h0.1
    have hstep := (applyOp_spec _ op hwfpre hok1).2 s
    have hrunop : run (Controls.new (F := F) (S := S) (V := V)) (pre ++ [op]) =
        applyOp (run Controls.new pre) op := by
      rw [run_append]
      rfl
    rw [hrunop]
    rcases hstep with hu | hd
    · rcases hu with ⟨he, hc⟩ | ⟨he, h0, hpos⟩
      · refine ⟨?_, ?_, ?_⟩
        · constructor
          · intro hx
            rw [he] at hx
            exact absurd hx (by simp)
          · rintro ⟨hz, hp⟩
            have := hc.mpr hp
            omega
        · constructor
          · intro hx
            rw [he] at hx
            exact absurd hx (by simp)
          · rintro ⟨hp, hz⟩
            have := hc.mp hp
            omega
        · intro _
          exact he
      · refine ⟨?_, ?_, ?_⟩
        · exact ⟨fun _ => ⟨h0, hpos⟩, fun _ => he⟩
        · constructor
          · intro hx
            rw [he] at hx
            have h2 := List.append_cancel_left hx
            simp at h2
          · rintro ⟨hp, _⟩
            omega
        · intro hiff
          have := hiff.mp h0
          omega
    · rcases hd with ⟨he, hc⟩ | ⟨he, hpos, h0⟩
      · refine ⟨?_, ?_, ?_⟩
        · constructor
          · intro hx
            rw [he] at hx
            exact absurd hx (by simp)
          · rintro ⟨hz, hp⟩
            have := hc.mpr hp
            omega
        · constructor
          · intro hx
            rw [he] at hx
            exact absurd hx (by simp)
          · rintro ⟨hp, hz⟩
            have := hc.mp hp
            omega
        · intro _
          exact he
      · refine ⟨?_, ?_, ?_⟩
        · constructor
          · intro hx
            rw [he] at hx
            have h2 := List.append_cancel_left hx
            simp at h2
          · rintro ⟨hz, _⟩
            omega
        · exact ⟨fun _ => ⟨hpos, h0⟩, fun _ => he⟩
        · intro hiff
          have := hiff.mpr h0
          omega

/-- C5 witness: binding `Button 1` to switch target 0 and pressing it once
yields an alternating stream, and the press step appends `Switch(Active)`
as the counter crosses from 0 to positive. -/
theorem claim_c5_witness :
    (runOk (Controls.new (F := Nat) (S := Nat) (V := Nat))
      [Op.bindAdd (ControlBind.Switch (HoldableTrigger.Button 1) 0),
       Op.dev 5 (DeviceEvent.Button 1 ElementState.Pressed)] = true) ∧
    altFrom SwitchState.Active
      (switchEventsFor 0 (run (Controls.new (F := Nat) (S := Nat) (V := Nat))
        [Op.bindAdd (ControlBind.Switch (HoldableTrigger.Button 1) 0),
         Op.dev 5 (DeviceEvent.Button 1 ElementState.Pressed)]).events) =
      true ∧
    switchEventsFor 0 (run (Controls.new (F := Nat) (S := Nat) (V := Nat))
        [Op.bindAdd (ControlBind.Switch (HoldableTrigger.Button 1) 0),
         Op.dev 5 (DeviceEvent.Button 1 ElementState.Pressed)]).events =
      switchEventsFor 0 (run (Controls.new (F := Nat) (S := Nat) (V := Nat))
        [Op.bindAdd (ControlBind.Switch (HoldableTrigger.Button 1) 0)]).events
        ++ [SwitchState.Active] := by
  have h := claim_c5_switch_alternation (F := Nat) (S := Nat) (V := Nat)
    [Op.bindAdd (ControlBind.Switch (HoldableTrigger.Button 1) 0),
     Op.dev 5 (DeviceEvent.Button 1 ElementState.Pressed)] (by decide) 0
  refine ⟨by decide, h.1, ?_⟩
  exact ((h.2 [Op.bindAdd (ControlBind.Switch (HoldableTrigger.Button 1) 0)]
    (Op.dev 5 (DeviceEvent.Button 1 ElementState.Pressed)) ⟨[], rfl⟩).1).mpr
    ⟨by decide, by decide⟩

/-- C1 (refuted, code bug): processing a device-removed event never emits
`Switch(Inactive)`.  After binding `Button 1` to switch target 0, pressing it
on device 5 (emitting `Switch(Active)`) and removing device 5, the trigger's
overall counter is driven 1 to 0, yet the event stream still ends without an
Inactive event and the switch counter was never decremented: the source's
`on_device_removed` only deletes per-device counters and fixes the overall
counter, never calling `decrease_switch_target_counter`. -/
theorem claim_c1_device_removed_no_inactive :
    (runOk (Controls.new (F := Nat) (S := Nat) (V := Nat))
      [Op.bindAdd (ControlBind.Switch (HoldableTrigger.Button 1) 0),
       Op.dev 5 (DeviceEvent.Button 1 ElementState.Pressed),
       Op.dev 5 DeviceEvent.Removed] = true) ∧
    ((dataOf (run (Controls.new (F := Nat) (S := Nat) (V := Nat))
      [Op.bindAdd (ControlBind.Switch (HoldableTrigger.Button 1) 0),
       Op.dev 5 (DeviceEvent.Button 1 ElementState.Pressed),
       Op.dev 5 DeviceEvent.Removed]) (HoldableTrigger.Button 1)
      ).overall_counter = 0) ∧
    (run (Controls.new (F := Nat) (S := Nat) (V := Nat))
      [Op.bindAdd (ControlBind.Switch (HoldableTrigger.Button 1) 0),
       Op.dev 5 (DeviceEvent.Button 1 ElementState.Pressed),
       Op.dev 5 DeviceEvent.Removed]).events =
      [ControlEvent.Switch 0 SwitchState.Active] := by
  decide

/-- C2 (refuted, code bug): `on_motion` folds one mutable `value` through the
loop over the targets of an axis and tests it for zero before applying the
target's factor.  With two targets bound to the axis, the second emitted
value is the already-scaled first value times the second factor (compounded),
not the raw motion value times the second factor as the spec demands; and
with a single target whose factor is 0, a `Value` event carrying 0 is
emitted, although the spec suppresses values that scale to zero. -/
theorem claim_c2_motion_scaling_divergence {F S V : Type} [DecidableEq F]
    [DecidableEq S] [DecidableEq V] [ValueTargetTrait V]
    (c : Controls F S V) (d : DeviceId) (a : Nat) (v : Rat) (t1 t2 : V)
    (f1 f2 : Rat) :
    (alookup c.axis_mappings a = some [t1, t2] →
      alookup c.value_factors t1 = some f1 →
      alookup c.value_factors t2 = some f2 →
      v ≠ 0 → v * (f1 * ValueTargetTrait.base_factor t1) ≠ 0 →
      (c.on_motion d a v).events = c.events ++
        [ControlEvent.Value t1 (v * (f1 * ValueTargetTrait.base_factor t1)),
         ControlEvent.Value t2 (v * (f1 * ValueTargetTrait.base_factor t1) *
           (f2 * ValueTargetTrait.base_factor t2))]) ∧
    (alookup c.axis_mappings a = some [t1] →
      alookup c.value_factors t1 = some 0 →
      v ≠ 0 →
      (c.on_motion d a v).events = c.events ++ [ControlEvent.Value t1 0]) := by
  constructor
  · intro hmap hf1 hf2 hv hv1
    simp only [Controls.on_motion, hmap]
    simp only [motionFold, List.foldl_cons, List.foldl_nil, hf1, hf2,
      Option.getD_some, ne_eq, hv, not_false_eq_true, if_true, hv1]
    rw [List.append_assoc]
    rfl
  · intro hmap hf0 hv
    simp only [Controls.on_motion, hmap]
    simp only [motionFold, List.foldl_cons, List.foldl_nil, hf0,
      Option.getD_some, ne_eq, hv, not_false_eq_true, if_true, zero_mul,
      mul_zero]

/-- C2 witness: with targets 1 and 2 bound to axis 0 with factors 2 and 3, a
motion of value 1 emits the compounded values 1*2 and (1*2)*3; with factor 0
on a single target it emits a zero-valued event. -/
theorem claim_c2_witness :
    ((run (Controls.new (F := Nat) (S := Nat) (V := Nat))
        [Op.bindAdd (ControlBind.Value (ValueTrigger.Axis 0) 1),
         Op.bindAdd (ControlBind.Value (ValueTrigger.Axis 0) 2),
         Op.factorSet 1 2, Op.factorSet 2 3]).on_motion 0 0 1).events =
      (run (Controls.new (F := Nat) (S := Nat) (V := Nat))
        [Op.bindAdd (ControlBind.Value (ValueTrigger.Axis 0) 1),
         Op.bindAdd (ControlBind.Value (ValueTrigger.Axis 0) 2),
         Op.factorSet 1 2, Op.factorSet 2 3]).events ++
      [ControlEvent.Value 1 ((1 : Rat) * (2 * ValueTargetTrait.base_factor (1 : Nat))),
       ControlEvent.Value 2 ((1 : Rat) * (2 * ValueTargetTrait.base_factor (1 : Nat)) * (3 * ValueTargetTrait.base_factor (2 : Nat)))] ∧
    ((run (Controls.new (F := Nat) (S := Nat) (V := Nat))
        [Op.bindAdd (ControlBind.Value (ValueTrigger.Axis 0) 1),
         Op.factorSet 1 0]).on_motion 0 0 1).events =
      (run (Controls.new (F := Nat) (S := Nat) (V := Nat))
        [Op.bindAdd (ControlBind.Value (ValueTrigger.Axis 0) 1),
         Op.factorSet 1 0]).events ++ [ControlEvent.Value 1 0] := by
  constructor
  · exact (claim_c2_motion_scaling_divergence _ 0 0 1 1 2 2 3).1 rfl rfl rfl
      (by simp) (by simp [ValueTargetTrait.base_factor])
  · exact (claim_c2_motion_scaling_divergence _ 0 0 1 1 2 2 3).2 rfl rfl
      (by simp)

/-- C4 (refuted, code bug): invariant I2 is broken by device removal.  After
a well-formed run that presses a bound `Button 1` on device 5 and then
removes device 5, the switch counter of target 0 is still 1 while no
holdable trigger with positive overall counter has 0 in its while-down set,
so the counter no longer equals the count the invariant demands. -/
theorem claim_c4_i2_broken_by_removal :
    (runOk (Controls.new (F := Nat) (S := Nat) (V := Nat))
      [Op.bindAdd (ControlBind.Switch (HoldableTrigger.Button 1) 0),
       Op.dev 5 (DeviceEvent.Button 1 ElementState.Pressed),
       Op.dev 5 DeviceEvent.Removed] = true) ∧
    switchCountOf (run (Controls.new (F := Nat) (S := Nat) (V := Nat))
      [Op.bindAdd (ControlBind.Switch (HoldableTrigger.Button 1) 0),
       Op.dev 5 (DeviceEvent.Button 1 ElementState.Pressed),
       Op.dev 5 DeviceEvent.Removed]) 0 = 1 ∧
    activeCount (run (Controls.new (F := Nat) (S := Nat) (V := Nat))
      [Op.bindAdd (ControlBind.Switch (HoldableTrigger.Button 1) 0),
       Op.dev 5 (DeviceEvent.Button 1 ElementState.Pressed),
       Op.dev 5 DeviceEvent.Removed]) 0 = 0 := by
  decide

/-- C7 (refuted, code bug): the decoder slices `"Button<N>"` with `ss[5..]`,
keeping the final letter of the six-letter prefix `"Button"`, so the number
parse sees `"n3"` and fails; every `"Button<N>"` string is rejected by both
the holdable and the fire decoder, even though the encoder itself produces
exactly the string `"Button3"` for `Button(3)`. -/
theorem claim_c7_button_string_rejected :
    HoldableTrigger.from_toml (Toml.VString "Button3") =
      Except.error "Unknown push button Button3" ∧
    FireTrigger.from_toml (Toml.VString "Button3") =
      Except.error ("Unknown fire trigger: " ++ squo ++ "Button3" ++ squo) ∧
    (HoldableTrigger.Button 3).to_toml = Toml.VString "Button3" :=
  ⟨by decide, by decide, rfl⟩

/-- C8 (refuted, code bug): the round trip fails on a well-formed document.
The document binding `LMBFire = "Button1"` (one bind, empty factors table, no
MouseX/MouseY reservation) is exactly what `to_toml` would produce for a
controls value with `Button(1)` bound to `LMBFire`, yet `from_toml` rejects
it because of the `"Button<N>"` slicing bug, so decode-then-encode cannot
reproduce the document. -/
theorem claim_c8_roundtrip_button_doc_fails :
    (Controls.from_toml parseFireTargetT parseSwitchTargetT parseValueTargetT
      (Toml.VTable [("binds", Toml.VTable [("LMBFire", Toml.VString "Button1")]),
        ("factors", Toml.VTable [])]) :
      Except String (Controls FireTargetT SwitchTargetT ValueTargetT)) =
      Except.error ("Unknown fire trigger: " ++ squo ++ "Button1" ++ squo) := by
  decide
